import Mathlib

/-!
Verification of the amphipod least-cost search kernel (src/src/amphipod.rs).

The board model, the move generators, the goal test and the frontier search
driver are shallowly embedded below.  Rust `Vec<Amphipod>` room stacks become
`List Amphipod` with the same orientation (index 0 is the bottom of the room,
`List.getLast?` is the token on top, `Vec::pop` is `List.dropLast`,
`Vec::push x` is `· ++ [x]`).  Rust `usize` arithmetic becomes `Nat`; the
subtractions `block_depth - block.len()` are in-range for every structurally
valid board, so truncating `Nat` subtraction is faithful there.  The driver's
`HashSet<AmphipodGame>` becomes `Finset AmphipodGame` and its unbounded
`while` loop is run on explicit fuel; a fuel bound sufficient for full
faithfulness is proved from a strictly decreasing measure on moves.
-/

set_option maxHeartbeats 1000000
set_option linter.unreachableTactic false
set_option linter.unusedTactic false
set_option linter.unusedVariables false

/-- The four token kinds of src/src/amphipod.rs (enum `Amphipod`). -/
inductive Amphipod : Type where
  | Amber
  | Bronze
  | Copper
  | Desert
deriving DecidableEq, Repr

/-- Per-step movement cost multiplier (`Amphipod::multiplier`). -/
def Amphipod.multiplier : Amphipod → Nat
  | .Amber => 1
  | .Bronze => 10
  | .Copper => 100
  | .Desert => 1000

/-- One board configuration (struct `AmphipodGame`): the seven hallway buffer
slots, the four room stacks (bottom to top), the declared room depth and the
cumulative energy spent so far. -/
structure AmphipodGame : Type where
  block_depth : Nat
  energy : Nat
  far_left_buffer : Option Amphipod
  left_buffer : Option Amphipod
  ab_buffer : Option Amphipod
  bc_buffer : Option Amphipod
  cd_buffer : Option Amphipod
  right_buffer : Option Amphipod
  far_right_buffer : Option Amphipod
  a_block : List Amphipod
  b_block : List Amphipod
  c_block : List Amphipod
  d_block : List Amphipod
deriving DecidableEq, Repr

/-- `AmphipodGame::is_a_block_valid`: every token in the a room is Amber. -/
def AmphipodGame.is_a_block_valid (g : AmphipodGame) : Bool :=
  g.a_block.all fun amphipod => match amphipod with
    | .Amber => true
    | _ => false

/-- `AmphipodGame::is_b_block_valid`: every token in the b room is Bronze. -/
def AmphipodGame.is_b_block_valid (g : AmphipodGame) : Bool :=
  g.b_block.all fun amphipod => match amphipod with
    | .Bronze => true
    | _ => false

/-- `AmphipodGame::is_c_block_valid`: every token in the c room is Copper. -/
def AmphipodGame.is_c_block_valid (g : AmphipodGame) : Bool :=
  g.c_block.all fun amphipod => match amphipod with
    | .Copper => true
    | _ => false

/-- `AmphipodGame::is_d_block_valid`: every token in the d room is Desert. -/
def AmphipodGame.is_d_block_valid (g : AmphipodGame) : Bool :=
  g.d_block.all fun amphipod => match amphipod with
    | .Desert => true
    | _ => false

/-- `is_game_winner`: all four rooms pass their validity check and all seven
hallway buffers are empty. -/
def is_game_winner (g : AmphipodGame) : Bool :=
  g.is_a_block_valid
    && g.is_b_block_valid
    && g.is_c_block_valid
    && g.is_d_block_valid
    && g.far_left_buffer.isNone
    && g.left_buffer.isNone
    && g.ab_buffer.isNone
    && g.bc_buffer.isNone
    && g.cd_buffer.isNone
    && g.right_buffer.isNone
    && g.far_right_buffer.isNone

/-- `a_block_valid_moves`: exits of the top of the a room into each reachable
empty hallway buffer.  The source extracts the top token with
`.last().expect(..)`; the `none` branch below is the would-be panic, proved
unreachable because an empty room passes the validity check and returns early. -/
def a_block_valid_moves (game : AmphipodGame) : List AmphipodGame :=
  if game.is_a_block_valid then [] else
  match game.a_block.getLast? with
  | none => []
  | some amphipod =>
    let base_cost := game.block_depth - game.a_block.length
    let left_moves : List AmphipodGame :=
      match game.far_left_buffer, game.left_buffer with
      | none, none =>
        [{ game with
             far_left_buffer := some amphipod
             a_block := game.a_block.dropLast
             energy := game.energy + amphipod.multiplier * (3 + base_cost) },
         { game with
             left_buffer := some amphipod
             a_block := game.a_block.dropLast
             energy := game.energy + amphipod.multiplier * (2 + base_cost) }]
      | _, none =>
        [{ game with
             left_buffer := some amphipod
             a_block := game.a_block.dropLast
             energy := game.energy + amphipod.multiplier * (2 + base_cost) }]
      | _, _ => []
    let right_moves : List AmphipodGame :=
      match game.ab_buffer, game.bc_buffer, game.cd_buffer, game.right_buffer,
          game.far_right_buffer with
      | none, none, none, none, none =>
        [{ game with
             far_right_buffer := some amphipod
             a_block := game.a_block.dropLast
             energy := game.energy + amphipod.multiplier * (9 + base_cost) },
         { game with
             right_buffer := some amphipod
             a_block := game.a_block.dropLast
             energy := game.energy + amphipod.multiplier * (8 + base_cost) },
         { game with
             cd_buffer := some amphipod
             a_block := game.a_block.dropLast
             energy := game.energy + amphipod.multiplier * (6 + base_cost) },
         { game with
             bc_buffer := some amphipod
             a_block := game.a_block.dropLast
             energy := game.energy + amphipod.multiplier * (4 + base_cost) },
         { game with
             ab_buffer := some amphipod
             a_block := game.a_block.dropLast
             energy := game.energy + amphipod.multiplier * (2 + base_cost) }]
      | none, none, none, none, _ =>
        [{ game with
             right_buffer := some amphipod
             a_block := game.a_block.dropLast
             energy := game.energy + amphipod.multiplier * (8 + base_cost) },
         { game with
             cd_buffer := some amphipod
             a_block := game.a_block.dropLast
             energy := game.energy + amphipod.multiplier * (6 + base_cost) },
         { game with
             bc_buffer := some amphipod
             a_block := game.a_block.dropLast
             energy := game.energy + amphipod.multiplier * (4 + base_cost) },
         { game with
             ab_buffer := some amphipod
             a_block := game.a_block.dropLast
             energy := game.energy + amphipod.multiplier * (2 + base_cost) }]
      | none, none, none, _, _ =>
        [{ game with
             cd_buffer := some amphipod
             a_block := game.a_block.dropLast
             energy := game.energy + amphipod.multiplier * (6 + base_cost) },
         { game with
             bc_buffer := some amphipod
             a_block := game.a_block.dropLast
             energy := game.energy + amphipod.multiplier * (4 + base_cost) },
         { game with
             ab_buffer := some amphipod
             a_block := game.a_block.dropLast
             energy := game.energy + amphipod.multiplier * (2 + base_cost) }]
      | none, none, _, _, _ =>
        [{ game with
             bc_buffer := some amphipod
             a_block := game.a_block.dropLast
             energy := game.energy + amphipod.multiplier * (4 + base_cost) },
         { game with
             ab_buffer := some amphipod
             a_block := game.a_block.dropLast
             energy := game.energy + amphipod.multiplier * (2 + base_cost) }]
      | none, _, _, _, _ =>
        [{ game with
             ab_buffer := some amphipod
             a_block := game.a_block.dropLast
             energy := game.energy + amphipod.multiplier * (2 + base_cost) }]
      | _, _, _, _, _ => []
    left_moves ++ right_moves

/-- `b_block_valid_moves`: exits of the top of the b room into each reachable
empty hallway buffer. -/
def b_block_valid_moves (game : AmphipodGame) : List AmphipodGame :=
  if game.is_b_block_valid then [] else
  match game.b_block.getLast? with
  | none => []
  | some amphipod =>
    let base_cost := game.block_depth - game.b_block.length
    let left_moves : List AmphipodGame :=
      match game.far_left_buffer, game.left_buffer, game.ab_buffer with
      | none, none, none =>
        [{ game with
             far_left_buffer := some amphipod
             b_block := game.b_block.dropLast
             energy := game.energy + amphipod.multiplier * (5 + base_cost) },
         { game with
             left_buffer := some amphipod
             b_block := game.b_block.dropLast
             energy := game.energy + amphipod.multiplier * (4 + base_cost) },
         { game with
             ab_buffer := some amphipod
             b_block := game.b_block.dropLast
             energy := game.energy + amphipod.multiplier * (2 + base_cost) }]
      | _, none, none =>
        [{ game with
             left_buffer := some amphipod
             b_block := game.b_block.dropLast
             energy := game.energy + amphipod.multiplier * (4 + base_cost) },
         { game with
             ab_buffer := some amphipod
             b_block := game.b_block.dropLast
             energy := game.energy + amphipod.multiplier * (2 + base_cost) }]
      | _, _, none =>
        [{ game with
             ab_buffer := some amphipod
             b_block := game.b_block.dropLast
             energy := game.energy + amphipod.multiplier * (2 + base_cost) }]
      | _, _, _ => []
    let right_moves : List AmphipodGame :=
      match game.bc_buffer, game.cd_buffer, game.right_buffer, game.far_right_buffer with
      | none, none, none, none =>
        [{ game with
             far_right_buffer := some amphipod
             b_block := game.b_block.dropLast
             energy := game.energy + amphipod.multiplier * (7 + base_cost) },
         { game with
             right_buffer := some amphipod
             b_block := game.b_block.dropLast
             energy := game.energy + amphipod.multiplier * (6 + base_cost) },
         { game with
             cd_buffer := some amphipod
             b_block := game.b_block.dropLast
             energy := game.energy + amphipod.multiplier * (4 + base_cost) },
         { game with
             bc_buffer := some amphipod
             b_block := game.b_block.dropLast
             energy := game.energy + amphipod.multiplier * (2 + base_cost) }]
      | none, none, none, _ =>
        [{ game with
             right_buffer := some amphipod
             b_block := game.b_block.dropLast
             energy := game.energy + amphipod.multiplier * (6 + base_cost) },
         { game with
             cd_buffer := some amphipod
             b_block := game.b_block.dropLast
             energy := game.energy + amphipod.multiplier * (4 + base_cost) },
         { game with
             bc_buffer := some amphipod
             b_block := game.b_block.dropLast
             energy := game.energy + amphipod.multiplier * (2 + base_cost) }]
      | none, none, _, _ =>
        [{ game with
             cd_buffer := some amphipod
             b_block := game.b_block.dropLast
             energy := game.energy + amphipod.multiplier * (4 + base_cost) },
         { game with
             bc_buffer := some amphipod
             b_block := game.b_block.dropLast
             energy := game.energy + amphipod.multiplier * (2 + base_cost) }]
      | none, _, _, _ =>
        [{ game with
             bc_buffer := some amphipod
             b_block := game.b_block.dropLast
             energy := game.energy + amphipod.multiplier * (2 + base_cost) }]
      | _, _, _, _ => []
    left_moves ++ right_moves

/-- `c_block_valid_moves`: exits of the top of the c room into each reachable
empty hallway buffer. -/
def c_block_valid_moves (game : AmphipodGame) : List AmphipodGame :=
  if game.is_c_block_valid then [] else
  match game.c_block.getLast? with
  | none => []
  | some amphipod =>
    let base_cost := game.block_depth - game.c_block.length
    let left_moves : List AmphipodGame :=
      match game.far_left_buffer, game.left_buffer, game.ab_buffer, game.bc_buffer with
      | none, none, none, none =>
        [{ game with
             far_left_buffer := some amphipod
             c_block := game.c_block.dropLast
             energy := game.energy + amphipod.multiplier * (7 + base_cost) },
         { game with
             left_buffer := some amphipod
             c_block := game.c_block.dropLast
             energy := game.energy + amphipod.multiplier * (6 + base_cost) },
         { game with
             ab_buffer := some amphipod
             c_block := game.c_block.dropLast
             energy := game.energy + amphipod.multiplier * (4 + base_cost) },
         { game with
             bc_buffer := some amphipod
             c_block := game.c_block.dropLast
             energy := game.energy + amphipod.multiplier * (2 + base_cost) }]
      | _, none, none, none =>
        [{ game with
             left_buffer := some amphipod
             c_block := game.c_block.dropLast
             energy := game.energy + amphipod.multiplier * (6 + base_cost) },
         { game with
             ab_buffer := some amphipod
             c_block := game.c_block.dropLast
             energy := game.energy + amphipod.multiplier * (4 + base_cost) },
         { game with
             bc_buffer := some amphipod
             c_block := game.c_block.dropLast
             energy := game.energy + amphipod.multiplier * (2 + base_cost) }]
      | _, _, none, none =>
        [{ game with
             ab_buffer := some amphipod
             c_block := game.c_block.dropLast
             energy := game.energy + amphipod.multiplier * (4 + base_cost) },
         { game with
             bc_buffer := some amphipod
             c_block := game.c_block.dropLast
             energy := game.energy + amphipod.multiplier * (2 + base_cost) }]
      | _, _, _, none =>
        [{ game with
             bc_buffer := some amphipod
             c_block := game.c_block.dropLast
             energy := game.energy + amphipod.multiplier * (2 + base_cost) }]
      | _, _, _, _ => []
    let right_moves : List AmphipodGame :=
      match game.cd_buffer, game.right_buffer, game.far_right_buffer with
      | none, none, none =>
        [{ game with
             far_right_buffer := some amphipod
             c_block := game.c_block.dropLast
             energy := game.energy + amphipod.multiplier * (5 + base_cost) },
         { game with
             right_buffer := some amphipod
             c_block := game.c_block.dropLast
             energy := game.energy + amphipod.multiplier * (4 + base_cost) },
         { game with
             cd_buffer := some amphipod
             c_block := game.c_block.dropLast
             energy := game.energy + amphipod.multiplier * (2 + base_cost) }]
      | none, none, _ =>
        [{ game with
             right_buffer := some amphipod
             c_block := game.c_block.dropLast
             energy := game.energy + amphipod.multiplier * (4 + base_cost) },
         { game with
             cd_buffer := some amphipod
             c_block := game.c_block.dropLast
             energy := game.energy + amphipod.multiplier * (2 + base_cost) }]
      | none, _, _ =>
        [{ game with
             cd_buffer := some amphipod
             c_block := game.c_block.dropLast
             energy := game.energy + amphipod.multiplier * (2 + base_cost) }]
      | _, _, _ => []
    left_moves ++ right_moves

/-- `d_block_valid_moves`: exits of the top of the d room into each reachable
empty hallway buffer. -/
def d_block_valid_moves (game : AmphipodGame) : List AmphipodGame :=
  if game.is_d_block_valid then [] else
  match game.d_block.getLast? with
  | none => []
  | some amphipod =>
    let base_cost := game.block_depth - game.d_block.length
    let left_moves : List AmphipodGame :=
      match game.far_left_buffer, game.left_buffer, game.ab_buffer, game.bc_buffer,
          game.cd_buffer with
      | none, none, none, none, none =>
        [{ game with
             far_left_buffer := some amphipod
             d_block := game.d_block.dropLast
             energy := game.energy + amphipod.multiplier * (9 + base_cost) },
         { game with
             left_buffer := some amphipod
             d_block := game.d_block.dropLast
             energy := game.energy + amphipod.multiplier * (8 + base_cost) },
         { game with
             ab_buffer := some amphipod
             d_block := game.d_block.dropLast
             energy := game.energy + amphipod.multiplier * (6 + base_cost) },
         { game with
             bc_buffer := some amphipod
             d_block := game.d_block.dropLast
             energy := game.energy + amphipod.multiplier * (4 + base_cost) },
         { game with
             cd_buffer := some amphipod
             d_block := game.d_block.dropLast
             energy := game.energy + amphipod.multiplier * (2 + base_cost) }]
      | _, none, none, none, none =>
        [{ game with
             left_buffer := some amphipod
             d_block := game.d_block.dropLast
             energy := game.energy + amphipod.multiplier * (8 + base_cost) },
         { game with
             ab_buffer := some amphipod
             d_block := game.d_block.dropLast
             energy := game.energy + amphipod.multiplier * (6 + base_cost) },
         { game with
             bc_buffer := some amphipod
             d_block := game.d_block.dropLast
             energy := game.energy + amphipod.multiplier * (4 + base_cost) },
         { game with
             cd_buffer := some amphipod
             d_block := game.d_block.dropLast
             energy := game.energy + amphipod.multiplier * (2 + base_cost) }]
      | _, _, none, none, none =>
        [{ game with
             ab_buffer := some amphipod
             d_block := game.d_block.dropLast
             energy := game.energy + amphipod.multiplier * (6 + base_cost) },
         { game with
             bc_buffer := some amphipod
             d_block := game.d_block.dropLast
             energy := game.energy + amphipod.multiplier * (4 + base_cost) },
         { game with
             cd_buffer := some amphipod
             d_block := game.d_block.dropLast
             energy := game.energy + amphipod.multiplier * (2 + base_cost) }]
      | _, _, _, none, none =>
        [{ game with
             bc_buffer := some amphipod
             d_block := game.d_block.dropLast
             energy := game.energy + amphipod.multiplier * (4 + base_cost) },
         { game with
             cd_buffer := some amphipod
             d_block := game.d_block.dropLast
             energy := game.energy + amphipod.multiplier * (2 + base_cost) }]
      | _, _, _, _, none =>
        [{ game with
             cd_buffer := some amphipod
             d_block := game.d_block.dropLast
             energy := game.energy + amphipod.multiplier * (2 + base_cost) }]
      | _, _, _, _, _ => []
    let right_moves : List AmphipodGame :=
      match game.right_buffer, game.far_right_buffer with
      | none, none =>
        [{ game with
             far_right_buffer := some amphipod
             d_block := game.d_block.dropLast
             energy := game.energy + amphipod.multiplier * (3 + base_cost) },
         { game with
             right_buffer := some amphipod
             d_block := game.d_block.dropLast
             energy := game.energy + amphipod.multiplier * (2 + base_cost) }]
      | none, _ =>
        [{ game with
             right_buffer := some amphipod
             d_block := game.d_block.dropLast
             energy := game.energy + amphipod.multiplier * (2 + base_cost) }]
      | _, _ => []
    left_moves ++ right_moves

/-- `far_left_buffer_valid_moves`: move the far-left hallway token into its
destination room when that room passes its validity check and the hallway path
to the room mouth is free. -/
def far_left_buffer_valid_moves (game : AmphipodGame) : Option AmphipodGame :=
  game.far_left_buffer.bind fun amphipod => match amphipod with
    | .Amber =>
      match game.is_a_block_valid, game.left_buffer with
      | true, none =>
        some { game with
                 far_left_buffer := none
                 a_block := game.a_block ++ [Amphipod.Amber]
                 energy := game.energy +
                   (3 + amphipod.multiplier * (game.block_depth - (game.a_block.length + 1))) }
      | _, _ => none
    | .Bronze =>
      match game.is_b_block_valid, game.left_buffer, game.ab_buffer with
      | true, none, none =>
        some { game with
                 far_left_buffer := none
                 b_block := game.b_block ++ [Amphipod.Bronze]
                 energy := game.energy +
                   (50 + amphipod.multiplier * (game.block_depth - (game.b_block.length + 1))) }
      | _, _, _ => none
    | .Copper =>
      match game.is_c_block_valid, game.left_buffer, game.ab_buffer, game.bc_buffer with
      | true, none, none, none =>
        some { game with
                 far_left_buffer := none
                 c_block := game.c_block ++ [Amphipod.Copper]
                 energy := game.energy +
                   (700 + amphipod.multiplier * (game.block_depth - (game.c_block.length + 1))) }
      | _, _, _, _ => none
    | .Desert =>
      match game.is_d_block_valid, game.left_buffer, game.ab_buffer, game.bc_buffer,
          game.cd_buffer with
      | true, none, none, none, none =>
        some { game with
                 far_left_buffer := none
                 d_block := game.d_block ++ [Amphipod.Desert]
                 energy := game.energy +
                   (9000 + amphipod.multiplier * (game.block_depth - (game.d_block.length + 1))) }
      | _, _, _, _, _ => none

/-- `left_buffer_valid_moves`: move the left hallway token into its destination
room when that room passes its validity check and the path is free. -/
def left_buffer_valid_moves (game : AmphipodGame) : Option AmphipodGame :=
  game.left_buffer.bind fun amphipod => match amphipod with
    | .Amber =>
      match game.is_a_block_valid with
      | true =>
        some { game with
                 left_buffer := none
                 a_block := game.a_block ++ [Amphipod.Amber]
                 energy := game.energy +
                   (2 + amphipod.multiplier * (game.block_depth - (game.a_block.length + 1))) }
      | _ => none
    | .Bronze =>
      match game.is_b_block_valid, game.ab_buffer with
      | true, none =>
        some { game with
                 left_buffer := none
                 b_block := game.b_block ++ [Amphipod.Bronze]
                 energy := game.energy +
                   (40 + amphipod.multiplier * (game.block_depth - (game.b_block.length + 1))) }
      | _, _ => none
    | .Copper =>
      match game.is_c_block_valid, game.ab_buffer, game.bc_buffer with
      | true, none, none =>
        some { game with
                 left_buffer := none
                 c_block := game.c_block ++ [Amphipod.Copper]
                 energy := game.energy +
                   (600 + amphipod.multiplier * (game.block_depth - (game.c_block.length + 1))) }
      | _, _, _ => none
    | .Desert =>
      match game.is_d_block_valid, game.ab_buffer, game.bc_buffer, game.cd_buffer with
      | true, none, none, none =>
        some { game with
                 left_buffer := none
                 d_block := game.d_block ++ [Amphipod.Desert]
                 energy := game.energy +
                   (8000 + amphipod.multiplier * (game.block_depth - (game.d_block.length + 1))) }
      | _, _, _, _ => none

/-- `ab_buffer_valid_moves`: move the token between rooms a and b into its
destination room when possible. -/
def ab_buffer_valid_moves (game : AmphipodGame) : Option AmphipodGame :=
  game.ab_buffer.bind fun amphipod => match amphipod with
    | .Amber =>
      match game.is_a_block_valid with
      | true =>
        some { game with
                 ab_buffer := none
                 a_block := game.a_block ++ [Amphipod.Amber]
                 energy := game.energy +
                   (2 + amphipod.multiplier * (game.block_depth - (game.a_block.length + 1))) }
      | _ => none
    | .Bronze =>
      match game.is_b_block_valid with
      | true =>
        some { game with
                 ab_buffer := none
                 b_block := game.b_block ++ [Amphipod.Bronze]
                 energy := game.energy +
                   (20 + amphipod.multiplier * (game.block_depth - (game.b_block.length + 1))) }
      | _ => none
    | .Copper =>
      match game.is_c_block_valid, game.bc_buffer with
      | true, none =>
        some { game with
                 ab_buffer := none
                 c_block := game.c_block ++ [Amphipod.Copper]
                 energy := game.energy +
                   (400 + amphipod.multiplier * (game.block_depth - (game.c_block.length + 1))) }
      | _, _ => none
    | .Desert =>
      match game.is_d_block_valid, game.bc_buffer, game.cd_buffer with
      | true, none, none =>
        some { game with
                 ab_buffer := none
                 d_block := game.d_block ++ [Amphipod.Desert]
                 energy := game.energy +
                   (6000 + amphipod.multiplier * (game.block_depth - (game.d_block.length + 1))) }
      | _, _, _ => none

/-- `bc_buffer_valid_moves`: move the token between rooms b and c into its
destination room when possible. -/
def bc_buffer_valid_moves (game : AmphipodGame) : Option AmphipodGame :=
  game.bc_buffer.bind fun amphipod => match amphipod with
    | .Amber =>
      match game.is_a_block_valid, game.ab_buffer with
      | true, none =>
        some { game with
                 bc_buffer := none
                 a_block := game.a_block ++ [Amphipod.Amber]
                 energy := game.energy +
                   (4 + amphipod.multiplier * (game.block_depth - (game.a_block.length + 1))) }
      | _, _ => none
    | .Bronze =>
      match game.is_b_block_valid with
      | true =>
        some { game with
                 bc_buffer := none
                 b_block := game.b_block ++ [Amphipod.Bronze]
                 energy := game.energy +
                   (20 + amphipod.multiplier * (game.block_depth - (game.b_block.length + 1))) }
      | _ => none
    | .Copper =>
      match game.is_c_block_valid with
      | true =>
        some { game with
                 bc_buffer := none
                 c_block := game.c_block ++ [Amphipod.Copper]
                 energy := game.energy +
                   (200 + amphipod.multiplier * (game.block_depth - (game.c_block.length + 1))) }
      | _ => none
    | .Desert =>
      match game.is_d_block_valid, game.cd_buffer with
      | true, none =>
        some { game with
                 bc_buffer := none
                 d_block := game.d_block ++ [Amphipod.Desert]
                 energy := game.energy +
                   (4000 + amphipod.multiplier * (game.block_depth - (game.d_block.length + 1))) }
      | _, _ => none

/-- `cd_buffer_valid_moves`: move the token between rooms c and d into its
destination room when possible. -/
def cd_buffer_valid_moves (game : AmphipodGame) : Option AmphipodGame :=
  game.cd_buffer.bind fun amphipod => match amphipod with
    | .Amber =>
      match game.is_a_block_valid, game.ab_buffer, game.bc_buffer with
      | true, none, none =>
        some { game with
                 cd_buffer := none
                 a_block := game.a_block ++ [Amphipod.Amber]
                 energy := game.energy +
                   (6 + amphipod.multiplier * (game.block_depth - (game.a_block.length + 1))) }
      | _, _, _ => none
    | .Bronze =>
      match game.is_b_block_valid, game.bc_buffer with
      | true, none =>
        some { game with
                 cd_buffer := none
                 b_block := game.b_block ++ [Amphipod.Bronze]
                 energy := game.energy +
                   (40 + amphipod.multiplier * (game.block_depth - (game.b_block.length + 1))) }
      | _, _ => none
    | .Copper =>
      match game.is_c_block_valid with
      | true =>
        some { game with
                 cd_buffer := none
                 c_block := game.c_block ++ [Amphipod.Copper]
                 energy := game.energy +
                   (200 + amphipod.multiplier * (game.block_depth - (game.c_block.length + 1))) }
      | _ => none
    | .Desert =>
      match game.is_d_block_valid with
      | true =>
        some { game with
                 cd_buffer := none
                 d_block := game.d_block ++ [Amphipod.Desert]
                 energy := game.energy +
                   (2000 + amphipod.multiplier * (game.block_depth - (game.d_block.length + 1))) }
      | _ => none

/-- `right_buffer_valid_moves`: move the right hallway token into its
destination room when possible. -/
def right_buffer_valid_moves (game : AmphipodGame) : Option AmphipodGame :=
  game.right_buffer.bind fun amphipod => match amphipod with
    | .Amber =>
      match game.is_a_block_valid, game.ab_buffer, game.bc_buffer, game.cd_buffer with
      | true, none, none, none =>
        some { game with
                 right_buffer := none
                 a_block := game.a_block ++ [Amphipod.Amber]
                 energy := game.energy +
                   (8 + amphipod.multiplier * (game.block_depth - (game.a_block.length + 1))) }
      | _, _, _, _ => none
    | .Bronze =>
      match game.is_b_block_valid, game.bc_buffer, game.cd_buffer with
      | true, none, none =>
        some { game with
                 right_buffer := none
                 b_block := game.b_block ++ [Amphipod.Bronze]
                 energy := game.energy +
                   (60 + amphipod.multiplier * (game.block_depth - (game.b_block.length + 1))) }
      | _, _, _ => none
    | .Copper =>
      match game.is_c_block_valid, game.cd_buffer with
      | true, none =>
        some { game with
                 right_buffer := none
                 c_block := game.c_block ++ [Amphipod.Copper]
                 energy := game.energy +
                   (400 + amphipod.multiplier * (game.block_depth - (game.c_block.length + 1))) }
      | _, _ => none
    | .Desert =>
      match game.is_d_block_valid with
      | true =>
        some { game with
                 right_buffer := none
                 d_block := game.d_block ++ [Amphipod.Desert]
                 energy := game.energy +
                   (2000 + amphipod.multiplier * (game.block_depth - (game.d_block.length + 1))) }
      | _ => none

/-- `far_right_buffer_valid_moves`: move the far-right hallway token into its
destination room when possible.  The Bronze arm of the source writes the
multiplier as the literal `10` rather than calling `multiplier()`. -/
def far_right_buffer_valid_moves (game : AmphipodGame) : Option AmphipodGame :=
  game.far_right_buffer.bind fun amphipod => match amphipod with
    | .Amber =>
      match game.is_a_block_valid, game.ab_buffer, game.bc_buffer, game.cd_buffer,
          game.right_buffer with
      | true, none, none, none, none =>
        some { game with
                 far_right_buffer := none
                 a_block := game.a_block ++ [Amphipod.Amber]
                 energy := game.energy +
                   (9 + amphipod.multiplier * (game.block_depth - (game.a_block.length + 1))) }
      | _, _, _, _, _ => none
    | .Bronze =>
      match game.is_b_block_valid, game.bc_buffer, game.cd_buffer, game.right_buffer with
      | true, none, none, none =>
        some { game with
                 far_right_buffer := none
                 b_block := game.b_block ++ [Amphipod.Bronze]
                 energy := game.energy +
                   (70 + 10 * (game.block_depth - (game.b_block.length + 1))) }
      | _, _, _, _ => none
    | .Copper =>
      match game.is_c_block_valid, game.cd_buffer, game.right_buffer with
      | true, none, none =>
        some { game with
                 far_right_buffer := none
                 c_block := game.c_block ++ [Amphipod.Copper]
                 energy := game.energy +
                   (500 + amphipod.multiplier * (game.block_depth - (game.c_block.length + 1))) }
      | _, _, _ => none
    | .Desert =>
      match game.is_d_block_valid, game.right_buffer with
      | true, none =>
        some { game with
                 far_right_buffer := none
                 d_block := game.d_block ++ [Amphipod.Desert]
                 energy := game.energy +
                   (3000 + amphipod.multiplier * (game.block_depth - (game.d_block.length + 1))) }
      | _, _ => none

/-- `get_all_valid_moves`: concatenation of the four room-exit generators and
the seven hallway-entry generators (a Rust `Vec` extended with four `Vec`s and
seven `Option`s). -/
def get_all_valid_moves (game : AmphipodGame) : List AmphipodGame :=
  a_block_valid_moves game
    ++ b_block_valid_moves game
    ++ c_block_valid_moves game
    ++ d_block_valid_moves game
    ++ (far_left_buffer_valid_moves game).toList
    ++ (left_buffer_valid_moves game).toList
    ++ (ab_buffer_valid_moves game).toList
    ++ (bc_buffer_valid_moves game).toList
    ++ (cd_buffer_valid_moves game).toList
    ++ (right_buffer_valid_moves game).toList
    ++ (far_right_buffer_valid_moves game).toList

/-- Identifier for one of the four rooms. -/
inductive RoomId : Type where
  | ra
  | rb
  | rc
  | rd
deriving DecidableEq, Repr

/-- Identifier for one of the seven hallway buffer slots. -/
inductive HallSlot : Type where
  | farLeft
  | left
  | ab
  | bc
  | cd
  | right
  | farRight
deriving DecidableEq, Repr

/-- The designated token kind of a room. -/
def roomKind : RoomId → Amphipod
  | .ra => .Amber
  | .rb => .Bronze
  | .rc => .Copper
  | .rd => .Desert

/-- Read one room stack of a board. -/
def blockGet (g : AmphipodGame) : RoomId → List Amphipod
  | .ra => g.a_block
  | .rb => g.b_block
  | .rc => g.c_block
  | .rd => g.d_block

/-- Replace one room stack of a board. -/
def setBlock (g : AmphipodGame) : RoomId → List Amphipod → AmphipodGame
  | .ra, l => { g with a_block := l }
  | .rb, l => { g with b_block := l }
  | .rc, l => { g with c_block := l }
  | .rd, l => { g with d_block := l }

/-- Read one hallway buffer slot of a board. -/
def bufferGet (g : AmphipodGame) : HallSlot → Option Amphipod
  | .farLeft => g.far_left_buffer
  | .left => g.left_buffer
  | .ab => g.ab_buffer
  | .bc => g.bc_buffer
  | .cd => g.cd_buffer
  | .right => g.right_buffer
  | .farRight => g.far_right_buffer

/-- Replace one hallway buffer slot of a board. -/
def setBuffer (g : AmphipodGame) : HallSlot → Option Amphipod → AmphipodGame
  | .farLeft, v => { g with far_left_buffer := v }
  | .left, v => { g with left_buffer := v }
  | .ab, v => { g with ab_buffer := v }
  | .bc, v => { g with bc_buffer := v }
  | .cd, v => { g with cd_buffer := v }
  | .right, v => { g with right_buffer := v }
  | .farRight, v => { g with far_right_buffer := v }

/-- The validity check of a room by identifier. -/
def roomValidB (g : AmphipodGame) : RoomId → Bool
  | .ra => g.is_a_block_valid
  | .rb => g.is_b_block_valid
  | .rc => g.is_c_block_valid
  | .rd => g.is_d_block_valid

/-- Hallway x-coordinate of a buffer slot (AoC day 23 geometry: the hallway is
eleven cells wide, the stop slots are cells 1, 2, 4, 6, 8, 10 and 11). -/
def hallX : HallSlot → Nat
  | .farLeft => 1
  | .left => 2
  | .ab => 4
  | .bc => 6
  | .cd => 8
  | .right => 10
  | .farRight => 11

/-- Hallway x-coordinate of a room's mouth (rooms sit under cells 3, 5, 7, 9). -/
def roomX : RoomId → Nat
  | .ra => 3
  | .rb => 5
  | .rc => 7
  | .rd => 9

/-- Number of hallway cells between a room's mouth and a buffer slot. -/
def hallDist (r : RoomId) (s : HallSlot) : Nat :=
  max (roomX r) (hallX s) - min (roomX r) (hallX s)

/-- Overwrite the cumulative energy of a board. -/
def withEnergy (g : AmphipodGame) (e : Nat) : AmphipodGame := { g with energy := e }

/-- The board after moving the top token `a` out of room `r` (whose remaining
stack is `t`) into hallway slot `s`, with the energy increment the source
charges for that exit. -/
def exitGame (g : AmphipodGame) (r : RoomId) (s : HallSlot) (t : List Amphipod)
    (a : Amphipod) : AmphipodGame :=
  withEnergy (setBuffer (setBlock g r t) s (some a))
    (g.energy + a.multiplier * (hallDist r s + 1 + (g.block_depth - (t.length + 1))))

/-- The board after moving the token waiting in hallway slot `s` down into its
destination room `r`, with the energy increment the source charges for that
entry. -/
def entryGame (g : AmphipodGame) (r : RoomId) (s : HallSlot) : AmphipodGame :=
  withEnergy (setBuffer (setBlock g r (blockGet g r ++ [roomKind r])) s none)
    (g.energy + ((roomKind r).multiplier * (hallDist r s + 1) +
      (roomKind r).multiplier * (g.block_depth - ((blockGet g r).length + 1))))

/-- `g'` is obtained from `g` by one room-to-hallway exit: room `r` fails its
validity check, its top token moves to the empty hallway slot `s`. -/
def ExitMove (g g' : AmphipodGame) (r : RoomId) (s : HallSlot) : Prop :=
  ∃ t a, blockGet g r = t ++ [a] ∧ roomValidB g r = false ∧ bufferGet g s = none ∧
    g' = exitGame g r s t a

/-- `g'` is obtained from `g` by one hallway-to-room entry: the token in slot
`s` is the kind of room `r`, room `r` passes its validity check, and the token
lands on top of it. -/
def EntryMove (g g' : AmphipodGame) (r : RoomId) (s : HallSlot) : Prop :=
  bufferGet g s = some (roomKind r) ∧ roomValidB g r = true ∧ g' = entryGame g r s

/-- All tokens present on a board, rooms first and then hallway slots. -/
def tokenList (g : AmphipodGame) : List Amphipod :=
  g.a_block ++ g.b_block ++ g.c_block ++ g.d_block
    ++ g.far_left_buffer.toList ++ g.left_buffer.toList ++ g.ab_buffer.toList
    ++ g.bc_buffer.toList ++ g.cd_buffer.toList ++ g.right_buffer.toList
    ++ g.far_right_buffer.toList

/-- The multiset of tokens present on a board. -/
def tokens (g : AmphipodGame) : Multiset Amphipod := (tokenList g : Multiset Amphipod)

/-- Number of tokens of kind `k` present on a board. -/
def countTok (g : AmphipodGame) (k : Amphipod) : Nat := (tokenList g).count k

/-- Total number of tokens sitting in rooms that fail their validity check. -/
def invalidRoomTokens (g : AmphipodGame) : Nat :=
  (if g.is_a_block_valid then 0 else g.a_block.length)
    + (if g.is_b_block_valid then 0 else g.b_block.length)
    + (if g.is_c_block_valid then 0 else g.c_block.length)
    + (if g.is_d_block_valid then 0 else g.d_block.length)

/-- Number of occupied hallway buffer slots. -/
def occupiedBuffers (g : AmphipodGame) : Nat :=
  (if g.far_left_buffer.isSome then 1 else 0)
    + (if g.left_buffer.isSome then 1 else 0)
    + (if g.ab_buffer.isSome then 1 else 0)
    + (if g.bc_buffer.isSome then 1 else 0)
    + (if g.cd_buffer.isSome then 1 else 0)
    + (if g.right_buffer.isSome then 1 else 0)
    + (if g.far_right_buffer.isSome then 1 else 0)

/-- Strictly decreasing measure for the move relation: exits strictly shrink
the invalid-room token count (at the price of one more occupied buffer) and
entries strictly shrink the occupied-buffer count. -/
def measureG (g : AmphipodGame) : Nat := 8 * invalidRoomTokens g + occupiedBuffers g

/-- Structural validity of a board: every room stack fits in the declared depth
and every kind has exactly `block_depth` tokens on the whole board. -/
def WellFormed (g : AmphipodGame) : Prop :=
  g.a_block.length ≤ g.block_depth ∧ g.b_block.length ≤ g.block_depth ∧
  g.c_block.length ≤ g.block_depth ∧ g.d_block.length ≤ g.block_depth ∧
  countTok g .Amber = g.block_depth ∧ countTok g .Bronze = g.block_depth ∧
  countTok g .Copper = g.block_depth ∧ countTok g .Desert = g.block_depth

/-- An initial board as the driver builds one: rooms filled exactly to the
declared depth, hallway empty, no energy spent yet. -/
def InitialBoard (g : AmphipodGame) : Prop :=
  g.a_block.length = g.block_depth ∧ g.b_block.length = g.block_depth ∧
  g.c_block.length = g.block_depth ∧ g.d_block.length = g.block_depth ∧
  g.far_left_buffer = none ∧ g.left_buffer = none ∧ g.ab_buffer = none ∧
  g.bc_buffer = none ∧ g.cd_buffer = none ∧ g.right_buffer = none ∧
  g.far_right_buffer = none ∧ g.energy = 0

/-- One iteration of the driver's `while` loop body (lines 168-190 of the
source): expand every frontier game, then split the successors into the
retained non-winners (first component) and the winners inserted into
`winning_games` (second component). -/
def searchStep (games : Finset AmphipodGame) : Finset AmphipodGame × Finset AmphipodGame :=
  let next := games.biUnion fun g => (get_all_valid_moves g).toFinset
  (next.filter fun g => is_game_winner g = false,
   next.filter fun g => is_game_winner g = true)

/-- The driver's `while games.len() > 0` loop, run on explicit fuel: returns
the accumulated `winning_games` set once the frontier is empty, `none` if the
fuel ran out first (the fuel bound proved below makes the model total). -/
def searchLoop : Nat → Finset AmphipodGame → Finset AmphipodGame → Option (Finset AmphipodGame)
  | 0, games, winning_games => if games = ∅ then some winning_games else none
  | fuel + 1, games, winning_games =>
    if games = ∅ then some winning_games
    else searchLoop fuel (searchStep games).1 (winning_games ∪ (searchStep games).2)

/-- The driver (`run`, lines 165-198) from an already-built initial board: run
the loop, then take the minimum energy over the winning games.  The inner
value is `Finset.min`, which is `⊤` exactly when no winning game was ever
recorded; at `⊤` the source panics via `.expect("At least one winner")`, so
`some ⊤` models that panic. -/
def runAmphipod (g0 : AmphipodGame) (fuel : Nat) : Option (WithTop Nat) :=
  (searchLoop fuel {g0} ∅).map fun winning_games =>
    (winning_games.image AmphipodGame.energy).min

/-- The frontier after `k` iterations of the loop, ignoring the stop test. -/
def frontiers (g0 : AmphipodGame) : Nat → Finset AmphipodGame
  | 0 => {g0}
  | k + 1 => (searchStep (frontiers g0 k)).1

/-- The winners accumulated during the first `k` iterations of the loop. -/
def winnersAcc (g0 : AmphipodGame) : Nat → Finset AmphipodGame
  | 0 => ∅
  | k + 1 => winnersAcc g0 k ∪ (searchStep (frontiers g0 k)).2

/-- `ReachN g0 k g`: board `g` is reachable from `g0` by a sequence of exactly
`k` generated moves. -/
def ReachN (g0 : AmphipodGame) : Nat → AmphipodGame → Prop
  | 0, g => g = g0
  | k + 1, g => ∃ h, ReachN g0 k h ∧ g ∈ get_all_valid_moves h

/-- One legal atomic relocation between a room and a hallway slot: exactly one
buffer and one room change; either a room failing its validity check pops its
top token into an empty slot, or a slot token of the room's own kind drops
into its validity-passing room.  In particular no move targets an occupied
slot or a foreign room, and no move is hallway-to-hallway or room-to-room. -/
def LegalRelocation (g g' : AmphipodGame) : Prop :=
  g'.block_depth = g.block_depth ∧
  ∃ r s,
    (∀ s', s' ≠ s → bufferGet g' s' = bufferGet g s') ∧
    (∀ r', r' ≠ r → blockGet g' r' = blockGet g r') ∧
    ((∃ a, bufferGet g s = none ∧ bufferGet g' s = some a ∧ roomValidB g r = false ∧
        blockGet g r = blockGet g' r ++ [a]) ∨
     (bufferGet g s = some (roomKind r) ∧ bufferGet g' s = none ∧ roomValidB g r = true ∧
        blockGet g' r = blockGet g r ++ [roomKind r]))

/-- The set of total costs of finite legal move sequences from `g0` to a goal
board.  Because the driver starts at energy 0 and every generated move adds
its own cost to the stored energy, the final energy of a reached goal board is
exactly the sum of the costs of the moves of the sequence. -/
def goalCosts (g0 : AmphipodGame) : Set Nat :=
  {n | ∃ k gf, ReachN g0 k gf ∧ is_game_winner gf = true ∧ gf.energy = n}

/-- A depth-1 board that is already solved. -/
def goalStart1 : AmphipodGame := {
  block_depth := 1
  energy := 0
  far_left_buffer := none
  left_buffer := none
  ab_buffer := none
  bc_buffer := none
  cd_buffer := none
  right_buffer := none
  far_right_buffer := none
  a_block := [.Amber]
  b_block := [.Bronze]
  c_block := [.Copper]
  d_block := [.Desert] }

/-- A depth-2 board that is already solved. -/
def goalStart2 : AmphipodGame := {
  block_depth := 2
  energy := 0
  far_left_buffer := none
  left_buffer := none
  ab_buffer := none
  bc_buffer := none
  cd_buffer := none
  right_buffer := none
  far_right_buffer := none
  a_block := [.Amber, .Amber]
  b_block := [.Bronze, .Bronze]
  c_block := [.Copper, .Copper]
  d_block := [.Desert, .Desert] }

/-- A depth-2 board with all four rooms empty and the hallway empty. -/
def emptyRoomsBoard : AmphipodGame := {
  block_depth := 2
  energy := 0
  far_left_buffer := none
  left_buffer := none
  ab_buffer := none
  bc_buffer := none
  cd_buffer := none
  right_buffer := none
  far_right_buffer := none
  a_block := []
  b_block := []
  c_block := []
  d_block := [] }

/-- A deadlocked board: all rooms are empty (hence pass their validity checks,
so no exits), and every hallway token's path to its destination room is
blocked by another hallway token, so no entries either.  No goal board is
reachable from it. -/
def deadlockBoard : AmphipodGame := {
  block_depth := 2
  energy := 0
  far_left_buffer := some .Desert
  left_buffer := some .Desert
  ab_buffer := some .Desert
  bc_buffer := some .Amber
  cd_buffer := some .Amber
  right_buffer := some .Amber
  far_right_buffer := some .Amber
  a_block := []
  b_block := []
  c_block := []
  d_block := [] }

/-- A depth-1 solvable initial board: the a and b rooms hold each other's
tokens, the c and d rooms are already correct. -/
def swapStart : AmphipodGame := {
  block_depth := 1
  energy := 0
  far_left_buffer := none
  left_buffer := none
  ab_buffer := none
  bc_buffer := none
  cd_buffer := none
  right_buffer := none
  far_right_buffer := none
  a_block := [.Bronze]
  b_block := [.Amber]
  c_block := [.Copper]
  d_block := [.Desert] }

/-- `swapStart` after moving the Bronze token from the a room to the ab slot. -/
def swapMid1 : AmphipodGame :=
  { swapStart with a_block := [], ab_buffer := some .Bronze, energy := 20 }

/-- `swapMid1` after moving the Amber token from the b room to the bc slot. -/
def swapMid2 : AmphipodGame :=
  { swapMid1 with b_block := [], bc_buffer := some .Amber, energy := 22 }

/-- `swapMid2` after dropping the Bronze token from the ab slot into the b room. -/
def swapMid3 : AmphipodGame :=
  { swapMid2 with ab_buffer := none, b_block := [.Bronze], energy := 42 }

/-- `swapMid3` after dropping the Amber token from the bc slot into the a room:
a goal board of total cost 46. -/
def swapGoal : AmphipodGame :=
  { swapMid3 with bc_buffer := none, a_block := [.Amber], energy := 46 }

/-- A depth-1 board with a Bronze token in the a room and an Amber token
parked at the far-right slot (so no reachable board is a winner for two
iterations and converging paths stay in the frontier). -/
def blockerBoard : AmphipodGame := {
  block_depth := 1
  energy := 0
  far_left_buffer := none
  left_buffer := none
  ab_buffer := none
  bc_buffer := none
  cd_buffer := none
  right_buffer := none
  far_right_buffer := some .Amber
  a_block := [.Bronze]
  b_block := []
  c_block := []
  d_block := [] }

/-- The board reached from `blockerBoard` by routing Bronze through the ab
slot into the b room: cumulative cost 40. -/
def keptCheap : AmphipodGame :=
  { blockerBoard with a_block := [], b_block := [.Bronze], energy := 40 }

/-- The same configuration as `keptCheap` reached by routing Bronze through
the bc slot instead: cumulative cost 60. -/
def keptCostly : AmphipodGame :=
  { blockerBoard with a_block := [], b_block := [.Bronze], energy := 60 }

/-- A depth-1 board on which every room fails its validity check. -/
def allWrongBoard : AmphipodGame := {
  block_depth := 1
  energy := 0
  far_left_buffer := none
  left_buffer := none
  ab_buffer := none
  bc_buffer := none
  cd_buffer := none
  right_buffer := none
  far_right_buffer := none
  a_block := [.Bronze]
  b_block := [.Amber]
  c_block := [.Desert]
  d_block := [.Copper] }

/-- Every successor produced by `a_block_valid_moves` is one legal exit of the
top of the a room into an empty hallway slot, with the charged energy. -/
theorem a_block_moves_char {g g' : AmphipodGame} (h : g' ∈ a_block_valid_moves g) :
    ∃ s, ExitMove g g' .ra s := by
  unfold a_block_valid_moves at h
  split at h
  · simp at h
  next hv =>
  split at h
  · simp at h
  next amph hlast =>
  obtain ⟨t, ht⟩ := List.getLast?_eq_some_iff.mp hlast
  have hval : roomValidB g .ra = false := by simpa [roomValidB] using hv
  have ht2 : blockGet g .ra = t ++ [amph] := by simpa [blockGet] using ht
  rw [List.mem_append] at h
  rcases h with h | h <;>
    split at h <;>
    simp only [List.mem_cons, List.not_mem_nil, or_false] at h <;>
    (first
      | (rcases h with rfl | rfl | rfl | rfl | rfl)
      | (rcases h with rfl | rfl | rfl | rfl)
      | (rcases h with rfl | rfl | rfl)
      | (rcases h with rfl | rfl)
      | (rcases h with rfl)) <;>
    (first
      | (refine ⟨.farLeft, t, amph, ht2, hval, ?_, ?_⟩ <;>
          first
            | assumption
            | (simp [exitGame, withEnergy, setBuffer, setBlock, hallDist, roomX, hallX, ht,
                List.dropLast_concat]; done))
      | (refine ⟨.left, t, amph, ht2, hval, ?_, ?_⟩ <;>
          first
            | assumption
            | (simp [exitGame, withEnergy, setBuffer, setBlock, hallDist, roomX, hallX, ht,
                List.dropLast_concat]; done))
      | (refine ⟨.ab, t, amph, ht2, hval, ?_, ?_⟩ <;>
          first
            | assumption
            | (simp [exitGame, withEnergy, setBuffer, setBlock, hallDist, roomX, hallX, ht,
                List.dropLast_concat]; done))
      | (refine ⟨.bc, t, amph, ht2, hval, ?_, ?_⟩ <;>
          first
            | assumption
            | (simp [exitGame, withEnergy, setBuffer, setBlock, hallDist, roomX, hallX, ht,
                List.dropLast_concat]; done))
      | (refine ⟨.cd, t, amph, ht2, hval, ?_, ?_⟩ <;>
          first
            | assumption
            | (simp [exitGame, withEnergy, setBuffer, setBlock, hallDist, roomX, hallX, ht,
                List.dropLast_concat]; done))
      | (refine ⟨.right, t, amph, ht2, hval, ?_, ?_⟩ <;>
          first
            | assumption
            | (simp [exitGame, withEnergy, setBuffer, setBlock, hallDist, roomX, hallX, ht,
                List.dropLast_concat]; done))
      | (refine ⟨.farRight, t, amph, ht2, hval, ?_, ?_⟩ <;>
          first
            | assumption
            | (simp [exitGame, withEnergy, setBuffer, setBlock, hallDist, roomX, hallX, ht,
                List.dropLast_concat]; done)))

/-- Every successor produced by `b_block_valid_moves` is one legal exit of the
top of the b room into an empty hallway slot, with the charged energy. -/
theorem b_block_moves_char {g g' : AmphipodGame} (h : g' ∈ b_block_valid_moves g) :
    ∃ s, ExitMove g g' .rb s := by
  unfold b_block_valid_moves at h
  split at h
  · simp at h
  next hv =>
  split at h
  · simp at h
  next amph hlast =>
  obtain ⟨t, ht⟩ := List.getLast?_eq_some_iff.mp hlast
  have hval : roomValidB g .rb = false := by simpa [roomValidB] using hv
  have ht2 : blockGet g .rb = t ++ [amph] := by simpa [blockGet] using ht
  rw [List.mem_append] at h
  rcases h with h | h <;>
    split at h <;>
    simp only [List.mem_cons, List.not_mem_nil, or_false] at h <;>
    (first
      | (rcases h with rfl | rfl | rfl | rfl | rfl)
      | (rcases h with rfl | rfl | rfl | rfl)
      | (rcases h with rfl | rfl | rfl)
      | (rcases h with rfl | rfl)
      | (rcases h with rfl)) <;>
    (first
      | (refine ⟨.farLeft, t, amph, ht2, hval, ?_, ?_⟩ <;>
          first
            | assumption
            | (simp [exitGame, withEnergy, setBuffer, setBlock, hallDist, roomX, hallX, ht,
                List.dropLast_concat]; done))
      | (refine ⟨.left, t, amph, ht2, hval, ?_, ?_⟩ <;>
          first
            | assumption
            | (simp [exitGame, withEnergy, setBuffer, setBlock, hallDist, roomX, hallX, ht,
                List.dropLast_concat]; done))
      | (refine ⟨.ab, t, amph, ht2, hval, ?_, ?_⟩ <;>
          first
            | assumption
            | (simp [exitGame, withEnergy, setBuffer, setBlock, hallDist, roomX, hallX, ht,
                List.dropLast_concat]; done))
      | (refine ⟨.bc, t, amph, ht2, hval, ?_, ?_⟩ <;>
          first
            | assumption
            | (simp [exitGame, withEnergy, setBuffer, setBlock, hallDist, roomX, hallX, ht,
                List.dropLast_concat]; done))
      | (refine ⟨.cd, t, amph, ht2, hval, ?_, ?_⟩ <;>
          first
            | assumption
            | (simp [exitGame, withEnergy, setBuffer, setBlock, hallDist, roomX, hallX, ht,
                List.dropLast_concat]; done))
      | (refine ⟨.right, t, amph, ht2, hval, ?_, ?_⟩ <;>
          first
            | assumption
            | (simp [exitGame, withEnergy, setBuffer, setBlock, hallDist, roomX, hallX, ht,
                List.dropLast_concat]; done))
      | (refine ⟨.farRight, t, amph, ht2, hval, ?_, ?_⟩ <;>
          first
            | assumption
            | (simp [exitGame, withEnergy, setBuffer, setBlock, hallDist, roomX, hallX, ht,
                List.dropLast_concat]; done)))

/-- Every successor produced by `c_block_valid_moves` is one legal exit of the
top of the c room into an empty hallway slot, with the charged energy. -/
theorem c_block_moves_char {g g' : AmphipodGame} (h : g' ∈ c_block_valid_moves g) :
    ∃ s, ExitMove g g' .rc s := by
  unfold c_block_valid_moves at h
  split at h
  · simp at h
  next hv =>
  split at h
  · simp at h
  next amph hlast =>
  obtain ⟨t, ht⟩ := List.getLast?_eq_some_iff.mp hlast
  have hval : roomValidB g .rc = false := by simpa [roomValidB] using hv
  have ht2 : blockGet g .rc = t ++ [amph] := by simpa [blockGet] using ht
  rw [List.mem_append] at h
  rcases h with h | h <;>
    split at h <;>
    simp only [List.mem_cons, List.not_mem_nil, or_false] at h <;>
    (first
      | (rcases h with rfl | rfl | rfl | rfl | rfl)
      | (rcases h with rfl | rfl | rfl | rfl)
      | (rcases h with rfl | rfl | rfl)
      | (rcases h with rfl | rfl)
      | (rcases h with rfl)) <;>
    (first
      | (refine ⟨.farLeft, t, amph, ht2, hval, ?_, ?_⟩ <;>
          first
            | assumption
            | (simp [exitGame, withEnergy, setBuffer, setBlock, hallDist, roomX, hallX, ht,
                List.dropLast_concat]; done))
      | (refine ⟨.left, t, amph, ht2, hval, ?_, ?_⟩ <;>
          first
            | assumption
            | (simp [exitGame, withEnergy, setBuffer, setBlock, hallDist, roomX, hallX, ht,
                List.dropLast_concat]; done))
      | (refine ⟨.ab, t, amph, ht2, hval, ?_, ?_⟩ <;>
          first
            | assumption
            | (simp [exitGame, withEnergy, setBuffer, setBlock, hallDist, roomX, hallX, ht,
                List.dropLast_concat]; done))
      | (refine ⟨.bc, t, amph, ht2, hval, ?_, ?_⟩ <;>
          first
            | assumption
            | (simp [exitGame, withEnergy, setBuffer, setBlock, hallDist, roomX, hallX, ht,
                List.dropLast_concat]; done))
      | (refine ⟨.cd, t, amph, ht2, hval, ?_, ?_⟩ <;>
          first
            | assumption
            | (simp [exitGame, withEnergy, setBuffer, setBlock, hallDist, roomX, hallX, ht,
                List.dropLast_concat]; done))
      | (refine ⟨.right, t, amph, ht2, hval, ?_, ?_⟩ <;>
          first
            | assumption
            | (simp [exitGame, withEnergy, setBuffer, setBlock, hallDist, roomX, hallX, ht,
                List.dropLast_concat]; done))
      | (refine ⟨.farRight, t, amph, ht2, hval, ?_, ?_⟩ <;>
          first
            | assumption
            | (simp [exitGame, withEnergy, setBuffer, setBlock, hallDist, roomX, hallX, ht,
                List.dropLast_concat]; done)))

/-- Every successor produced by `d_block_valid_moves` is one legal exit of the
top of the d room into an empty hallway slot, with the charged energy. -/
theorem d_block_moves_char {g g' : AmphipodGame} (h : g' ∈ d_block_valid_moves g) :
    ∃ s, ExitMove g g' .rd s := by
  unfold d_block_valid_moves at h
  split at h
  · simp at h
  next hv =>
  split at h
  · simp at h
  next amph hlast =>
  obtain ⟨t, ht⟩ := List.getLast?_eq_some_iff.mp hlast
  have hval : roomValidB g .rd = false := by simpa [roomValidB] using hv
  have ht2 : blockGet g .rd = t ++ [amph] := by simpa [blockGet] using ht
  rw [List.mem_append] at h
  rcases h with h | h <;>
    split at h <;>
    simp only [List.mem_cons, List.not_mem_nil, or_false] at h <;>
    (first
      | (rcases h with rfl | rfl | rfl | rfl | rfl)
      | (rcases h with rfl | rfl | rfl | rfl)
      | (rcases h with rfl | rfl | rfl)
      | (rcases h with rfl | rfl)
      | (rcases h with rfl)) <;>
    (first
      | (refine ⟨.farLeft, t, amph, ht2, hval, ?_, ?_⟩ <;>
          first
            | assumption
            | (simp [exitGame, withEnergy, setBuffer, setBlock, hallDist, roomX, hallX, ht,
                List.dropLast_concat]; done))
      | (refine ⟨.left, t, amph, ht2, hval, ?_, ?_⟩ <;>
          first
            | assumption
            | (simp [exitGame, withEnergy, setBuffer, setBlock, hallDist, roomX, hallX, ht,
                List.dropLast_concat]; done))
      | (refine ⟨.ab, t, amph, ht2, hval, ?_, ?_⟩ <;>
          first
            | assumption
            | (simp [exitGame, withEnergy, setBuffer, setBlock, hallDist, roomX, hallX, ht,
                List.dropLast_concat]; done))
      | (refine ⟨.bc, t, amph, ht2, hval, ?_, ?_⟩ <;>
          first
            | assumption
            | (simp [exitGame, withEnergy, setBuffer, setBlock, hallDist, roomX, hallX, ht,
                List.dropLast_concat]; done))
      | (refine ⟨.cd, t, amph, ht2, hval, ?_, ?_⟩ <;>
          first
            | assumption
            | (simp [exitGame, withEnergy, setBuffer, setBlock, hallDist, roomX, hallX, ht,
                List.dropLast_concat]; done))
      | (refine ⟨.right, t, amph, ht2, hval, ?_, ?_⟩ <;>
          first
            | assumption
            | (simp [exitGame, withEnergy, setBuffer, setBlock, hallDist, roomX, hallX, ht,
                List.dropLast_concat]; done))
      | (refine ⟨.farRight, t, amph, ht2, hval, ?_, ?_⟩ <;>
          first
            | assumption
            | (simp [exitGame, withEnergy, setBuffer, setBlock, hallDist, roomX, hallX, ht,
                List.dropLast_concat]; done)))

/-- A successor produced by `far_left_buffer_valid_moves` is one legal entry of
the far-left hallway token into its destination room. -/
theorem far_left_buffer_moves_char {g g' : AmphipodGame}
    (h : far_left_buffer_valid_moves g = some g') :
    ∃ r, EntryMove g g' r .farLeft := by
  unfold far_left_buffer_valid_moves at h
  cases hb : g.far_left_buffer with
  | none => rw [hb] at h; simp at h
  | some amph =>
  rw [hb] at h
  rw [Option.some_bind] at h
  split at h <;>
    split at h <;>
    (try simp only [Option.some.injEq, reduceCtorEq] at h) <;>
    subst h <;>
    (first
      | (refine ⟨.ra, ?_, ?_, ?_⟩ <;>
          first
            | assumption
            | (simp only [bufferGet, roomKind]; assumption)
            | (simp [entryGame, withEnergy, setBuffer, setBlock, blockGet, roomKind,
                hallDist, roomX, hallX, Amphipod.multiplier]; done))
      | (refine ⟨.rb, ?_, ?_, ?_⟩ <;>
          first
            | assumption
            | (simp only [bufferGet, roomKind]; assumption)
            | (simp [entryGame, withEnergy, setBuffer, setBlock, blockGet, roomKind,
                hallDist, roomX, hallX, Amphipod.multiplier]; done))
      | (refine ⟨.rc, ?_, ?_, ?_⟩ <;>
          first
            | assumption
            | (simp only [bufferGet, roomKind]; assumption)
            | (simp [entryGame, withEnergy, setBuffer, setBlock, blockGet, roomKind,
                hallDist, roomX, hallX, Amphipod.multiplier]; done))
      | (refine ⟨.rd, ?_, ?_, ?_⟩ <;>
          first
            | assumption
            | (simp only [bufferGet, roomKind]; assumption)
            | (simp [entryGame, withEnergy, setBuffer, setBlock, blockGet, roomKind,
                hallDist, roomX, hallX, Amphipod.multiplier]; done)))

/-- A successor produced by `left_buffer_valid_moves` is one legal entry of
the left hallway token into its destination room. -/
theorem left_buffer_moves_char {g g' : AmphipodGame}
    (h : left_buffer_valid_moves g = some g') :
    ∃ r, EntryMove g g' r .left := by
  unfold left_buffer_valid_moves at h
  cases hb : g.left_buffer with
  | none => rw [hb] at h; simp at h
  | some amph =>
  rw [hb] at h
  rw [Option.some_bind] at h
  split at h <;>
    split at h <;>
    (try simp only [Option.some.injEq, reduceCtorEq] at h) <;>
    subst h <;>
    (first
      | (refine ⟨.ra, ?_, ?_, ?_⟩ <;>
          first
            | assumption
            | (simp only [bufferGet, roomKind]; assumption)
            | (simp [entryGame, withEnergy, setBuffer, setBlock, blockGet, roomKind,
                hallDist, roomX, hallX, Amphipod.multiplier]; done))
      | (refine ⟨.rb, ?_, ?_, ?_⟩ <;>
          first
            | assumption
            | (simp only [bufferGet, roomKind]; assumption)
            | (simp [entryGame, withEnergy, setBuffer, setBlock, blockGet, roomKind,
                hallDist, roomX, hallX, Amphipod.multiplier]; done))
      | (refine ⟨.rc, ?_, ?_, ?_⟩ <;>
          first
            | assumption
            | (simp only [bufferGet, roomKind]; assumption)
            | (simp [entryGame, withEnergy, setBuffer, setBlock, blockGet, roomKind,
                hallDist, roomX, hallX, Amphipod.multiplier]; done))
      | (refine ⟨.rd, ?_, ?_, ?_⟩ <;>
          first
            | assumption
            | (simp only [bufferGet, roomKind]; assumption)
            | (simp [entryGame, withEnergy, setBuffer, setBlock, blockGet, roomKind,
                hallDist, roomX, hallX, Amphipod.multiplier]; done)))

/-- A successor produced by `ab_buffer_valid_moves` is one legal entry of
the ab hallway token into its destination room. -/
theorem ab_buffer_moves_char {g g' : AmphipodGame}
    (h : ab_buffer_valid_moves g = some g') :
    ∃ r, EntryMove g g' r .ab := by
  unfold ab_buffer_valid_moves at h
  cases hb : g.ab_buffer with
  | none => rw [hb] at h; simp at h
  | some amph =>
  rw [hb] at h
  rw [Option.some_bind] at h
  split at h <;>
    split at h <;>
    (try simp only [Option.some.injEq, reduceCtorEq] at h) <;>
    subst h <;>
    (first
      | (refine ⟨.ra, ?_, ?_, ?_⟩ <;>
          first
            | assumption
            | (simp only [bufferGet, roomKind]; assumption)
            | (simp [entryGame, withEnergy, setBuffer, setBlock, blockGet, roomKind,
                hallDist, roomX, hallX, Amphipod.multiplier]; done))
      | (refine ⟨.rb, ?_, ?_, ?_⟩ <;>
          first
            | assumption
            | (simp only [bufferGet, roomKind]; assumption)
            | (simp [entryGame, withEnergy, setBuffer, setBlock, blockGet, roomKind,
                hallDist, roomX, hallX, Amphipod.multiplier]; done))
      | (refine ⟨.rc, ?_, ?_, ?_⟩ <;>
          first
            | assumption
            | (simp only [bufferGet, roomKind]; assumption)
            | (simp [entryGame, withEnergy, setBuffer, setBlock, blockGet, roomKind,
                hallDist, roomX, hallX, Amphipod.multiplier]; done))
      | (refine ⟨.rd, ?_, ?_, ?_⟩ <;>
          first
            | assumption
            | (simp only [bufferGet, roomKind]; assumption)
            | (simp [entryGame, withEnergy, setBuffer, setBlock, blockGet, roomKind,
                hallDist, roomX, hallX, Amphipod.multiplier]; done)))

/-- A successor produced by `bc_buffer_valid_moves` is one legal entry of
the bc hallway token into its destination room. -/
theorem bc_buffer_moves_char {g g' : AmphipodGame}
    (h : bc_buffer_valid_moves g = some g') :
    ∃ r, EntryMove g g' r .bc := by
  unfold bc_buffer_valid_moves at h
  cases hb : g.bc_buffer with
  | none => rw [hb] at h; simp at h
  | some amph =>
  rw [hb] at h
  rw [Option.some_bind] at h
  split at h <;>
    split at h <;>
    (try simp only [Option.some.injEq, reduceCtorEq] at h) <;>
    subst h <;>
    (first
      | (refine ⟨.ra, ?_, ?_, ?_⟩ <;>
          first
            | assumption
            | (simp only [bufferGet, roomKind]; assumption)
            | (simp [entryGame, withEnergy, setBuffer, setBlock, blockGet, roomKind,
                hallDist, roomX, hallX, Amphipod.multiplier]; done))
      | (refine ⟨.rb, ?_, ?_, ?_⟩ <;>
          first
            | assumption
            | (simp only [bufferGet, roomKind]; assumption)
            | (simp [entryGame, withEnergy, setBuffer, setBlock, blockGet, roomKind,
                hallDist, roomX, hallX, Amphipod.multiplier]; done))
      | (refine ⟨.rc, ?_, ?_, ?_⟩ <;>
          first
            | assumption
            | (simp only [bufferGet, roomKind]; assumption)
            | (simp [entryGame, withEnergy, setBuffer, setBlock, blockGet, roomKind,
                hallDist, roomX, hallX, Amphipod.multiplier]; done))
      | (refine ⟨.rd, ?_, ?_, ?_⟩ <;>
          first
            | assumption
            | (simp only [bufferGet, roomKind]; assumption)
            | (simp [entryGame, withEnergy, setBuffer, setBlock, blockGet, roomKind,
                hallDist, roomX, hallX, Amphipod.multiplier]; done)))

/-- A successor produced by `cd_buffer_valid_moves` is one legal entry of
the cd hallway token into its destination room. -/
theorem cd_buffer_moves_char {g g' : AmphipodGame}
    (h : cd_buffer_valid_moves g = some g') :
    ∃ r, EntryMove g g' r .cd := by
  unfold cd_buffer_valid_moves at h
  cases hb : g.cd_buffer with
  | none => rw [hb] at h; simp at h
  | some amph =>
  rw [hb] at h
  rw [Option.some_bind] at h
  split at h <;>
    split at h <;>
    (try simp only [Option.some.injEq, reduceCtorEq] at h) <;>
    subst h <;>
    (first
      | (refine ⟨.ra, ?_, ?_, ?_⟩ <;>
          first
            | assumption
            | (simp only [bufferGet, roomKind]; assumption)
            | (simp [entryGame, withEnergy, setBuffer, setBlock, blockGet, roomKind,
                hallDist, roomX, hallX, Amphipod.multiplier]; done))
      | (refine ⟨.rb, ?_, ?_, ?_⟩ <;>
          first
            | assumption
            | (simp only [bufferGet, roomKind]; assumption)
            | (simp [entryGame, withEnergy, setBuffer, setBlock, blockGet, roomKind,
                hallDist, roomX, hallX, Amphipod.multiplier]; done))
      | (refine ⟨.rc, ?_, ?_, ?_⟩ <;>
          first
            | assumption
            | (simp only [bufferGet, roomKind]; assumption)
            | (simp [entryGame, withEnergy, setBuffer, setBlock, blockGet, roomKind,
                hallDist, roomX, hallX, Amphipod.multiplier]; done))
      | (refine ⟨.rd, ?_, ?_, ?_⟩ <;>
          first
            | assumption
            | (simp only [bufferGet, roomKind]; assumption)
            | (simp [entryGame, withEnergy, setBuffer, setBlock, blockGet, roomKind,
                hallDist, roomX, hallX, Amphipod.multiplier]; done)))

/-- A successor produced by `right_buffer_valid_moves` is one legal entry of
the right hallway token into its destination room. -/
theorem right_buffer_moves_char {g g' : AmphipodGame}
    (h : right_buffer_valid_moves g = some g') :
    ∃ r, EntryMove g g' r .right := by
  unfold right_buffer_valid_moves at h
  cases hb : g.right_buffer with
  | none => rw [hb] at h; simp at h
  | some amph =>
  rw [hb] at h
  rw [Option.some_bind] at h
  split at h <;>
    split at h <;>
    (try simp only [Option.some.injEq, reduceCtorEq] at h) <;>
    subst h <;>
    (first
      | (refine ⟨.ra, ?_, ?_, ?_⟩ <;>
          first
            | assumption
            | (simp only [bufferGet, roomKind]; assumption)
            | (simp [entryGame, withEnergy, setBuffer, setBlock, blockGet, roomKind,
                hallDist, roomX, hallX, Amphipod.multiplier]; done))
      | (refine ⟨.rb, ?_, ?_, ?_⟩ <;>
          first
            | assumption
            | (simp only [bufferGet, roomKind]; assumption)
            | (simp [entryGame, withEnergy, setBuffer, setBlock, blockGet, roomKind,
                hallDist, roomX, hallX, Amphipod.multiplier]; done))
      | (refine ⟨.rc, ?_, ?_, ?_⟩ <;>
          first
            | assumption
            | (simp only [bufferGet, roomKind]; assumption)
            | (simp [entryGame, withEnergy, setBuffer, setBlock, blockGet, roomKind,
                hallDist, roomX, hallX, Amphipod.multiplier]; done))
      | (refine ⟨.rd, ?_, ?_, ?_⟩ <;>
          first
            | assumption
            | (simp only [bufferGet, roomKind]; assumption)
            | (simp [entryGame, withEnergy, setBuffer, setBlock, blockGet, roomKind,
                hallDist, roomX, hallX, Amphipod.multiplier]; done)))

/-- A successor produced by `far_right_buffer_valid_moves` is one legal entry of
the far-right hallway token into its destination room. -/
theorem far_right_buffer_moves_char {g g' : AmphipodGame}
    (h : far_right_buffer_valid_moves g = some g') :
    ∃ r, EntryMove g g' r .farRight := by
  unfold far_right_buffer_valid_moves at h
  cases hb : g.far_right_buffer with
  | none => rw [hb] at h; simp at h
  | some amph =>
  rw [hb] at h
  rw [Option.some_bind] at h
  split at h <;>
    split at h <;>
    (try simp only [Option.some.injEq, reduceCtorEq] at h) <;>
    subst h <;>
    (first
      | (refine ⟨.ra, ?_, ?_, ?_⟩ <;>
          first
            | assumption
            | (simp only [bufferGet, roomKind]; assumption)
            | (simp [entryGame, withEnergy, setBuffer, setBlock, blockGet, roomKind,
                hallDist, roomX, hallX, Amphipod.multiplier]; done))
      | (refine ⟨.rb, ?_, ?_, ?_⟩ <;>
          first
            | assumption
            | (simp only [bufferGet, roomKind]; assumption)
            | (simp [entryGame, withEnergy, setBuffer, setBlock, blockGet, roomKind,
                hallDist, roomX, hallX, Amphipod.multiplier]; done))
      | (refine ⟨.rc, ?_, ?_, ?_⟩ <;>
          first
            | assumption
            | (simp only [bufferGet, roomKind]; assumption)
            | (simp [entryGame, withEnergy, setBuffer, setBlock, blockGet, roomKind,
                hallDist, roomX, hallX, Amphipod.multiplier]; done))
      | (refine ⟨.rd, ?_, ?_, ?_⟩ <;>
          first
            | assumption
            | (simp only [bufferGet, roomKind]; assumption)
            | (simp [entryGame, withEnergy, setBuffer, setBlock, blockGet, roomKind,
                hallDist, roomX, hallX, Amphipod.multiplier]; done)))

/-- Every successor of the combined move generator is a single room-to-hallway
exit or hallway-to-room entry. -/
theorem get_all_valid_moves_char {g g' : AmphipodGame} (h : g' ∈ get_all_valid_moves g) :
    ∃ r s, ExitMove g g' r s ∨ EntryMove g g' r s := by
  unfold get_all_valid_moves at h
  simp only [List.mem_append, Option.mem_toList, Option.mem_def] at h
  rcases h with ((((((((((h | h) | h) | h) | h) | h) | h) | h) | h) | h) | h)
  · obtain ⟨s, hs⟩ := a_block_moves_char h
    exact ⟨_, s, Or.inl hs⟩
  · obtain ⟨s, hs⟩ := b_block_moves_char h
    exact ⟨_, s, Or.inl hs⟩
  · obtain ⟨s, hs⟩ := c_block_moves_char h
    exact ⟨_, s, Or.inl hs⟩
  · obtain ⟨s, hs⟩ := d_block_moves_char h
    exact ⟨_, s, Or.inl hs⟩
  · obtain ⟨r, hr⟩ := far_left_buffer_moves_char h
    exact ⟨r, _, Or.inr hr⟩
  · obtain ⟨r, hr⟩ := left_buffer_moves_char h
    exact ⟨r, _, Or.inr hr⟩
  · obtain ⟨r, hr⟩ := ab_buffer_moves_char h
    exact ⟨r, _, Or.inr hr⟩
  · obtain ⟨r, hr⟩ := bc_buffer_moves_char h
    exact ⟨r, _, Or.inr hr⟩
  · obtain ⟨r, hr⟩ := cd_buffer_moves_char h
    exact ⟨r, _, Or.inr hr⟩
  · obtain ⟨r, hr⟩ := right_buffer_moves_char h
    exact ⟨r, _, Or.inr hr⟩
  · obtain ⟨r, hr⟩ := far_right_buffer_moves_char h
    exact ⟨r, _, Or.inr hr⟩

/-- A winning board generates no moves: all rooms pass their validity checks
(so no exits) and all buffers are empty (so no entries). -/
theorem winner_no_moves {g : AmphipodGame} (hw : is_game_winner g = true) :
    get_all_valid_moves g = [] := by
  simp only [is_game_winner, Bool.and_eq_true, Option.isNone_iff_eq_none] at hw
  obtain ⟨⟨⟨⟨⟨⟨⟨⟨⟨⟨ha, hb⟩, hc⟩, hd⟩, h1⟩, h2⟩, h3⟩, h4⟩, h5⟩, h6⟩, h7⟩ := hw
  simp [get_all_valid_moves, a_block_valid_moves, b_block_valid_moves, c_block_valid_moves,
    d_block_valid_moves, far_left_buffer_valid_moves, left_buffer_valid_moves,
    ab_buffer_valid_moves, bc_buffer_valid_moves, cd_buffer_valid_moves,
    right_buffer_valid_moves, far_right_buffer_valid_moves, ha, hb, hc, hd,
    h1, h2, h3, h4, h5, h6, h7]

/-- An exit relocates one token from a room to a hallway slot: the token
multiset is unchanged. -/
theorem tokens_exitGame {g : AmphipodGame} {r : RoomId} {s : HallSlot}
    {t : List Amphipod} {a : Amphipod} (ht : blockGet g r = t ++ [a])
    (hbuf : bufferGet g s = none) : tokens (exitGame g r s t a) = tokens g := by
  cases r <;> cases s <;>
    simp only [blockGet, bufferGet] at ht hbuf <;>
    refine Multiset.ext.mpr fun k => ?_ <;>
    simp [tokens, tokenList, exitGame, withEnergy, setBuffer, setBlock, blockGet, bufferGet,
      ht, hbuf, List.count_append, List.count_cons, beq_iff_eq] <;>
    (repeat' split) <;>
    omega

/-- An entry relocates one token from a hallway slot to a room: the token
multiset is unchanged. -/
theorem tokens_entryGame {g : AmphipodGame} {r : RoomId} {s : HallSlot}
    (hbuf : bufferGet g s = some (roomKind r)) : tokens (entryGame g r s) = tokens g := by
  cases r <;> cases s <;>
    simp only [bufferGet, roomKind] at hbuf <;>
    refine Multiset.ext.mpr fun k => ?_ <;>
    simp [tokens, tokenList, entryGame, withEnergy, setBuffer, setBlock, blockGet, roomKind,
      hbuf, List.count_append, List.count_cons, beq_iff_eq] <;>
    (repeat' split) <;>
    omega

theorem bufferGet_setBuffer_self (g : AmphipodGame) (s : HallSlot) (v : Option Amphipod) :
    bufferGet (setBuffer g s v) s = v := by
  cases s <;> simp [bufferGet, setBuffer]

theorem bufferGet_setBuffer_ne {s' : HallSlot} (g : AmphipodGame) (s : HallSlot)
    (v : Option Amphipod) (h : s' ≠ s) : bufferGet (setBuffer g s v) s' = bufferGet g s' := by
  cases s <;> cases s' <;> simp_all [bufferGet, setBuffer]

theorem bufferGet_setBlock (g : AmphipodGame) (r : RoomId) (l : List Amphipod) (s : HallSlot) :
    bufferGet (setBlock g r l) s = bufferGet g s := by
  cases r <;> cases s <;> simp [bufferGet, setBlock]

theorem bufferGet_withEnergy (g : AmphipodGame) (e : Nat) (s : HallSlot) :
    bufferGet (withEnergy g e) s = bufferGet g s := by
  cases s <;> simp [bufferGet, withEnergy]

theorem blockGet_setBlock_self (g : AmphipodGame) (r : RoomId) (l : List Amphipod) :
    blockGet (setBlock g r l) r = l := by
  cases r <;> simp [blockGet, setBlock]

theorem blockGet_setBlock_ne {r' : RoomId} (g : AmphipodGame) (r : RoomId)
    (l : List Amphipod) (h : r' ≠ r) : blockGet (setBlock g r l) r' = blockGet g r' := by
  cases r <;> cases r' <;> simp_all [blockGet, setBlock]

theorem blockGet_setBuffer (g : AmphipodGame) (s : HallSlot) (v : Option Amphipod) (r : RoomId) :
    blockGet (setBuffer g s v) r = blockGet g r := by
  cases s <;> cases r <;> simp [blockGet, setBuffer]

theorem blockGet_withEnergy (g : AmphipodGame) (e : Nat) (r : RoomId) :
    blockGet (withEnergy g e) r = blockGet g r := by
  cases r <;> simp [blockGet, withEnergy]

theorem block_depth_setBuffer (g : AmphipodGame) (s : HallSlot) (v : Option Amphipod) :
    (setBuffer g s v).block_depth = g.block_depth := by
  cases s <;> simp [setBuffer]

theorem block_depth_setBlock (g : AmphipodGame) (r : RoomId) (l : List Amphipod) :
    (setBlock g r l).block_depth = g.block_depth := by
  cases r <;> simp [setBlock]

theorem energy_withEnergy (g : AmphipodGame) (e : Nat) : (withEnergy g e).energy = e := rfl

theorem roomValidB_setBuffer (g : AmphipodGame) (s : HallSlot) (v : Option Amphipod)
    (r : RoomId) : roomValidB (setBuffer g s v) r = roomValidB g r := by
  cases s <;> cases r <;>
    simp [roomValidB, setBuffer, AmphipodGame.is_a_block_valid, AmphipodGame.is_b_block_valid,
      AmphipodGame.is_c_block_valid, AmphipodGame.is_d_block_valid]

theorem roomValidB_withEnergy (g : AmphipodGame) (e : Nat) (r : RoomId) :
    roomValidB (withEnergy g e) r = roomValidB g r := by
  cases r <;>
    simp [roomValidB, withEnergy, AmphipodGame.is_a_block_valid, AmphipodGame.is_b_block_valid,
      AmphipodGame.is_c_block_valid, AmphipodGame.is_d_block_valid]

/-- The invalid-room token count as a sum over room identifiers. -/
theorem invalidRoomTokens_eq (g : AmphipodGame) :
    invalidRoomTokens g =
      (if roomValidB g .ra then 0 else (blockGet g .ra).length)
        + (if roomValidB g .rb then 0 else (blockGet g .rb).length)
        + (if roomValidB g .rc then 0 else (blockGet g .rc).length)
        + (if roomValidB g .rd then 0 else (blockGet g .rd).length) := rfl

/-- The occupied-buffer count as a sum over slot identifiers. -/
theorem occupiedBuffers_eq (g : AmphipodGame) :
    occupiedBuffers g =
      (if (bufferGet g .farLeft).isSome then 1 else 0)
        + (if (bufferGet g .left).isSome then 1 else 0)
        + (if (bufferGet g .ab).isSome then 1 else 0)
        + (if (bufferGet g .bc).isSome then 1 else 0)
        + (if (bufferGet g .cd).isSome then 1 else 0)
        + (if (bufferGet g .right).isSome then 1 else 0)
        + (if (bufferGet g .farRight).isSome then 1 else 0) := rfl

theorem occupiedBuffers_setBuffer_some (g : AmphipodGame) (s : HallSlot) (a : Amphipod)
    (h : bufferGet g s = none) :
    occupiedBuffers (setBuffer g s (some a)) = occupiedBuffers g + 1 := by
  cases s <;> simp_all [occupiedBuffers, setBuffer, bufferGet] <;> omega

theorem occupiedBuffers_setBuffer_none (g : AmphipodGame) (s : HallSlot) (a : Amphipod)
    (h : bufferGet g s = some a) :
    occupiedBuffers (setBuffer g s none) + 1 = occupiedBuffers g := by
  cases s <;> simp_all [occupiedBuffers, setBuffer, bufferGet] <;> omega

theorem occupiedBuffers_setBlock (g : AmphipodGame) (r : RoomId) (l : List Amphipod) :
    occupiedBuffers (setBlock g r l) = occupiedBuffers g := by
  cases r <;> simp [occupiedBuffers, setBlock]

theorem occupiedBuffers_withEnergy (g : AmphipodGame) (e : Nat) :
    occupiedBuffers (withEnergy g e) = occupiedBuffers g := rfl

theorem invalidRoomTokens_setBuffer (g : AmphipodGame) (s : HallSlot) (v : Option Amphipod) :
    invalidRoomTokens (setBuffer g s v) = invalidRoomTokens g := by
  cases s <;>
    simp [invalidRoomTokens, setBuffer, AmphipodGame.is_a_block_valid,
      AmphipodGame.is_b_block_valid, AmphipodGame.is_c_block_valid,
      AmphipodGame.is_d_block_valid]

theorem invalidRoomTokens_withEnergy (g : AmphipodGame) (e : Nat) :
    invalidRoomTokens (withEnergy g e) = invalidRoomTokens g := rfl

theorem invalidRoomTokens_setBlock_pop (g : AmphipodGame) (r : RoomId) (t : List Amphipod)
    (a : Amphipod) (ht : blockGet g r = t ++ [a]) (hv : roomValidB g r = false) :
    invalidRoomTokens (setBlock g r t) < invalidRoomTokens g := by
  cases r <;>
    simp only [blockGet, roomValidB, AmphipodGame.is_a_block_valid,
      AmphipodGame.is_b_block_valid, AmphipodGame.is_c_block_valid,
      AmphipodGame.is_d_block_valid] at ht hv <;>
    rw [ht] at hv <;>
    simp [invalidRoomTokens, setBlock, AmphipodGame.is_a_block_valid,
      AmphipodGame.is_b_block_valid, AmphipodGame.is_c_block_valid,
      AmphipodGame.is_d_block_valid, hv, ht] <;>
    (repeat' split) <;>
    omega

theorem invalidRoomTokens_setBlock_push (g : AmphipodGame) (r : RoomId)
    (hv : roomValidB g r = true) :
    invalidRoomTokens (setBlock g r (blockGet g r ++ [roomKind r])) = invalidRoomTokens g := by
  cases r <;>
    simp only [blockGet, roomValidB, AmphipodGame.is_a_block_valid,
      AmphipodGame.is_b_block_valid, AmphipodGame.is_c_block_valid,
      AmphipodGame.is_d_block_valid, List.all_eq_true] at hv <;>
    simp [invalidRoomTokens, setBlock, blockGet, roomKind, AmphipodGame.is_a_block_valid,
      AmphipodGame.is_b_block_valid, AmphipodGame.is_c_block_valid,
      AmphipodGame.is_d_block_valid, List.all_append, hv] <;>
    (repeat' split) <;>
    first
      | omega
      | contradiction

/-- An exit strictly decreases the search measure. -/
theorem measureG_exitGame {g : AmphipodGame} {r : RoomId} {s : HallSlot}
    {t : List Amphipod} {a : Amphipod} (ht : blockGet g r = t ++ [a])
    (hv : roomValidB g r = false) (hbuf : bufferGet g s = none) :
    measureG (exitGame g r s t a) < measureG g := by
  have h1 : invalidRoomTokens (exitGame g r s t a) = invalidRoomTokens (setBlock g r t) := by
    unfold exitGame
    rw [invalidRoomTokens_withEnergy, invalidRoomTokens_setBuffer]
  have h2 : occupiedBuffers (exitGame g r s t a) = occupiedBuffers (setBlock g r t) + 1 := by
    unfold exitGame
    rw [occupiedBuffers_withEnergy,
      occupiedBuffers_setBuffer_some _ _ _ (by rw [bufferGet_setBlock]; exact hbuf)]
  have h3 := invalidRoomTokens_setBlock_pop g r t a ht hv
  have h4 := occupiedBuffers_setBlock g r t
  unfold measureG
  omega

/-- An entry strictly decreases the search measure. -/
theorem measureG_entryGame {g : AmphipodGame} {r : RoomId} {s : HallSlot}
    (hbuf : bufferGet g s = some (roomKind r)) (hv : roomValidB g r = true) :
    measureG (entryGame g r s) < measureG g := by
  have h1 : invalidRoomTokens (entryGame g r s) = invalidRoomTokens g := by
    unfold entryGame
    rw [invalidRoomTokens_withEnergy, invalidRoomTokens_setBuffer,
      invalidRoomTokens_setBlock_push g r hv]
  have h2 : occupiedBuffers (entryGame g r s) + 1 = occupiedBuffers g := by
    unfold entryGame
    rw [occupiedBuffers_withEnergy,
      occupiedBuffers_setBuffer_none _ _ (roomKind r) (by rw [bufferGet_setBlock]; exact hbuf),
      occupiedBuffers_setBlock]
  unfold measureG
  omega

theorem Amphipod.one_le_multiplier (a : Amphipod) : 1 ≤ a.multiplier := by
  cases a <;> simp [Amphipod.multiplier]

/-- Every exit charges a strictly positive energy increment. -/
theorem energy_exitGame {g : AmphipodGame} (r : RoomId) (s : HallSlot)
    (t : List Amphipod) (a : Amphipod) : g.energy < (exitGame g r s t a).energy := by
  unfold exitGame
  rw [energy_withEnergy]
  have h1 := a.one_le_multiplier
  have h2 : 1 ≤ hallDist r s + 1 + (g.block_depth - (t.length + 1)) := by omega
  have := Nat.mul_le_mul h1 h2
  omega

/-- Every entry charges a strictly positive energy increment. -/
theorem energy_entryGame {g : AmphipodGame} (r : RoomId) (s : HallSlot) :
    g.energy < (entryGame g r s).energy := by
  unfold entryGame
  rw [energy_withEnergy]
  have h1 := (roomKind r).one_le_multiplier
  have h2 : 1 ≤ hallDist r s + 1 := by omega
  have := Nat.mul_le_mul h1 h2
  omega

/-- Every generated move strictly decreases the search measure. -/
theorem move_measure {g g' : AmphipodGame} (h : g' ∈ get_all_valid_moves g) :
    measureG g' < measureG g := by
  obtain ⟨r, s, hm | hm⟩ := get_all_valid_moves_char h
  · obtain ⟨t, a, ht, hv, hbuf, rfl⟩ := hm
    exact measureG_exitGame ht hv hbuf
  · obtain ⟨hbuf, hv, rfl⟩ := hm
    exact measureG_entryGame hbuf hv

/-- Every generated move strictly increases the cumulative energy. -/
theorem move_energy {g g' : AmphipodGame} (h : g' ∈ get_all_valid_moves g) :
    g.energy < g'.energy := by
  obtain ⟨r, s, hm | hm⟩ := get_all_valid_moves_char h
  · obtain ⟨t, a, ht, hv, hbuf, rfl⟩ := hm
    exact energy_exitGame r s t a
  · obtain ⟨hbuf, hv, rfl⟩ := hm
    exact energy_entryGame r s

/-- Every generated move preserves the token multiset. -/
theorem move_tokens {g g' : AmphipodGame} (h : g' ∈ get_all_valid_moves g) :
    tokens g' = tokens g := by
  obtain ⟨r, s, hm | hm⟩ := get_all_valid_moves_char h
  · obtain ⟨t, a, ht, hv, hbuf, rfl⟩ := hm
    exact tokens_exitGame ht hbuf
  · obtain ⟨hbuf, hv, rfl⟩ := hm
    exact tokens_entryGame hbuf

/-- Membership in the retained frontier of one loop iteration. -/
theorem mem_searchStep_frontier {F : Finset AmphipodGame} {g' : AmphipodGame} :
    g' ∈ (searchStep F).1 ↔
      (∃ g ∈ F, g' ∈ get_all_valid_moves g) ∧ is_game_winner g' = false := by
  simp [searchStep, Finset.mem_filter, Finset.mem_biUnion, List.mem_toFinset, and_comm]

/-- Membership in the winners recorded by one loop iteration. -/
theorem mem_searchStep_winners {F : Finset AmphipodGame} {g' : AmphipodGame} :
    g' ∈ (searchStep F).2 ↔
      (∃ g ∈ F, g' ∈ get_all_valid_moves g) ∧ is_game_winner g' = true := by
  simp [searchStep, Finset.mem_filter, Finset.mem_biUnion, List.mem_toFinset, and_comm]

/-- The frontier after `k + 1` iterations holds exactly the non-winning boards
reachable in exactly `k + 1` moves. -/
theorem mem_frontiers {g0 : AmphipodGame} :
    ∀ k g', g' ∈ frontiers g0 (k + 1) ↔
      ReachN g0 (k + 1) g' ∧ is_game_winner g' = false := by
  intro k
  induction k with
  | zero =>
    intro g'
    rw [show frontiers g0 1 = (searchStep (frontiers g0 0)).1 from rfl]
    rw [mem_searchStep_frontier]
    constructor
    · rintro ⟨⟨g, hgF, hmv⟩, hw⟩
      simp only [frontiers, Finset.mem_singleton] at hgF
      exact ⟨⟨g, hgF, hmv⟩, hw⟩
    · rintro ⟨⟨g, hg0, hmv⟩, hw⟩
      have hg0' : g = g0 := hg0
      exact ⟨⟨g, by simp [frontiers, hg0'], hmv⟩, hw⟩
  | succ k ih =>
    intro g'
    rw [show frontiers g0 (k + 2) = (searchStep (frontiers g0 (k + 1))).1 from rfl]
    rw [mem_searchStep_frontier]
    constructor
    · rintro ⟨⟨h, hhF, hmv⟩, hw⟩
      obtain ⟨hr, _⟩ := (ih h).mp hhF
      exact ⟨⟨h, hr, hmv⟩, hw⟩
    · rintro ⟨⟨h, hr, hmv⟩, hw⟩
      have hhw : is_game_winner h = false := by
        by_contra hc
        rw [Bool.not_eq_false] at hc
        rw [winner_no_moves hc] at hmv
        exact absurd hmv (List.not_mem_nil g')
      exact ⟨⟨h, (ih h).mpr ⟨hr, hhw⟩, hmv⟩, hw⟩

/-- Along any move sequence the measure drops by one each step. -/
theorem reach_measure {g0 : AmphipodGame} :
    ∀ k g, ReachN g0 k g → measureG g + k ≤ measureG g0 := by
  intro k
  induction k with
  | zero =>
    intro g hg
    rw [show ReachN g0 0 g = (g = g0) from rfl] at hg
    subst hg
    omega
  | succ k ih =>
    rintro g ⟨h, hr, hmv⟩
    have h1 := ih h hr
    have h2 := move_measure hmv
    omega

/-- Once the fuel exceeds the initial measure, the frontier is empty. -/
theorem frontiers_empty {g0 : AmphipodGame} {k : Nat} (h : measureG g0 < k) :
    frontiers g0 k = ∅ := by
  cases k with
  | zero => omega
  | succ k =>
    rw [Finset.eq_empty_iff_forall_not_mem]
    intro g hg
    obtain ⟨hr, _⟩ := (mem_frontiers k g).mp hg
    have := reach_measure (k + 1) g hr
    omega

theorem frontiers_empty_succ {g0 : AmphipodGame} {k : Nat} (h : frontiers g0 k = ∅) :
    frontiers g0 (k + 1) = ∅ := by
  rw [show frontiers g0 (k + 1) = (searchStep (frontiers g0 k)).1 from rfl, h]
  simp [searchStep]

theorem winnersAcc_succ_of_empty {g0 : AmphipodGame} {k : Nat} (h : frontiers g0 k = ∅) :
    winnersAcc g0 (k + 1) = winnersAcc g0 k := by
  rw [show winnersAcc g0 (k + 1) = winnersAcc g0 k ∪ (searchStep (frontiers g0 k)).2 from rfl, h]
  simp [searchStep]

theorem frontiers_empty_ge {g0 : AmphipodGame} {k : Nat} (h : frontiers g0 k = ∅) :
    ∀ j, k ≤ j → frontiers g0 j = ∅ := by
  intro j hj
  induction j with
  | zero => exact Nat.le_zero.mp hj ▸ h
  | succ j ih =>
    rcases Nat.lt_or_ge k (j + 1) with hlt | hge
    · exact frontiers_empty_succ (ih (Nat.lt_succ_iff.mp hlt))
    · exact (Nat.le_antisymm hj hge) ▸ h

theorem winnersAcc_stable {g0 : AmphipodGame} {k : Nat} (h : frontiers g0 k = ∅) :
    ∀ j, k ≤ j → winnersAcc g0 j = winnersAcc g0 k := by
  intro j hj
  induction j with
  | zero => rw [Nat.le_zero.mp hj]
  | succ j ih =>
    rcases Nat.lt_or_ge k (j + 1) with hlt | hge
    · have hj' := Nat.lt_succ_iff.mp hlt
      rw [winnersAcc_succ_of_empty (frontiers_empty_ge h j hj'), ih hj']
    · rw [Nat.le_antisymm hj hge]

/-- Running the loop for `fuel` more iterations from the state after `k`
iterations, provided the frontier dies within the fuel, returns the winners
accumulated by iteration `k + fuel`. -/
theorem searchLoop_eq {g0 : AmphipodGame} :
    ∀ fuel k, frontiers g0 (k + fuel) = ∅ →
      searchLoop fuel (frontiers g0 k) (winnersAcc g0 k) = some (winnersAcc g0 (k + fuel)) := by
  intro fuel
  induction fuel with
  | zero =>
    intro k h
    simp only [Nat.add_zero] at h
    simp [searchLoop, h]
  | succ fuel ih =>
    intro k h
    simp only [searchLoop]
    by_cases hF : frontiers g0 k = ∅
    · rw [if_pos hF]
      rw [winnersAcc_stable hF (k + (fuel + 1)) (by omega)]
    · rw [if_neg hF]
      have h2 : frontiers g0 ((k + 1) + fuel) = ∅ := by
        rw [show (k + 1) + fuel = k + (fuel + 1) by omega]
        exact h
      have h3 := ih (k + 1) h2
      rw [show (searchStep (frontiers g0 k)).1 = frontiers g0 (k + 1) from rfl,
        show winnersAcc g0 k ∪ (searchStep (frontiers g0 k)).2 = winnersAcc g0 (k + 1) from rfl,
        h3, show (k + 1) + fuel = k + (fuel + 1) by omega]

/-- The winners accumulated by iteration `k` are exactly the winning boards
reachable in between 1 and `k` moves. -/
theorem mem_winnersAcc {g0 : AmphipodGame} :
    ∀ k g, g ∈ winnersAcc g0 k ↔
      is_game_winner g = true ∧ ∃ j, 1 ≤ j ∧ j ≤ k ∧ ReachN g0 j g := by
  intro k
  induction k with
  | zero =>
    intro g
    simp only [winnersAcc, Finset.not_mem_empty, false_iff]
    rintro ⟨_, j, h1, h0, _⟩
    omega
  | succ k ih =>
    intro g
    rw [show winnersAcc g0 (k + 1) = winnersAcc g0 k ∪ (searchStep (frontiers g0 k)).2 from rfl]
    rw [Finset.mem_union, ih g, mem_searchStep_winners]
    constructor
    · rintro (⟨hw, j, h1, h2, hr⟩ | ⟨⟨h, hhF, hmv⟩, hw⟩)
      · exact ⟨hw, j, h1, by omega, hr⟩
      · have hr : ReachN g0 k h := by
          cases k with
          | zero => exact (by simpa [frontiers] using hhF : h = g0)
          | succ k' => exact ((mem_frontiers k' h).mp hhF).1
        exact ⟨hw, k + 1, by omega, Nat.le_refl _, ⟨h, hr, hmv⟩⟩
    · rintro ⟨hw, j, h1, h2, hr⟩
      rcases Nat.lt_or_ge j (k + 1) with hlt | hge
      · exact Or.inl ⟨hw, j, h1, by omega, hr⟩
      · have hj : j = k + 1 := by omega
        subst hj
        obtain ⟨h, hrk, hmv⟩ := hr
        right
        refine ⟨⟨h, ?_, hmv⟩, hw⟩
        cases k with
        | zero =>
          have : h = g0 := hrk
          simp [frontiers, this]
        | succ k' =>
          have hhw : is_game_winner h = false := by
            by_contra hc
            rw [Bool.not_eq_false] at hc
            rw [winner_no_moves hc] at hmv
            exact absurd hmv (List.not_mem_nil g)
          exact (mem_frontiers k' h).mpr ⟨hrk, hhw⟩

/-- With fuel exceeding the initial measure, the driver's loop terminates and
returns exactly the winning boards reachable by at least one move. -/
theorem searchLoop_winners {g0 : AmphipodGame} {fuel : Nat} (hfuel : measureG g0 < fuel) :
    ∃ W, searchLoop fuel {g0} ∅ = some W ∧
      ∀ g, g ∈ W ↔ is_game_winner g = true ∧ ∃ j, 1 ≤ j ∧ ReachN g0 j g := by
  have hF : frontiers g0 (0 + fuel) = ∅ := by
    apply frontiers_empty
    omega
  have h1 := searchLoop_eq fuel 0 hF
  rw [show frontiers g0 0 = {g0} from rfl, show winnersAcc g0 0 = ∅ from rfl] at h1
  refine ⟨winnersAcc g0 (0 + fuel), h1, ?_⟩
  intro g
  rw [mem_winnersAcc]
  constructor
  · rintro ⟨hw, j, h1, h2, hr⟩
    exact ⟨hw, j, h1, hr⟩
  · rintro ⟨hw, j, hj1, hr⟩
    refine ⟨hw, j, hj1, ?_, hr⟩
    have := reach_measure j g hr
    omega

theorem block_depth_withEnergy (g : AmphipodGame) (e : Nat) :
    (withEnergy g e).block_depth = g.block_depth := rfl

theorem exitGame_block_depth (g : AmphipodGame) (r : RoomId) (s : HallSlot)
    (t : List Amphipod) (a : Amphipod) : (exitGame g r s t a).block_depth = g.block_depth := by
  unfold exitGame
  rw [block_depth_withEnergy, block_depth_setBuffer, block_depth_setBlock]

theorem entryGame_block_depth (g : AmphipodGame) (r : RoomId) (s : HallSlot) :
    (entryGame g r s).block_depth = g.block_depth := by
  unfold entryGame
  rw [block_depth_withEnergy, block_depth_setBuffer, block_depth_setBlock]

theorem bufferGet_exitGame_self (g : AmphipodGame) (r : RoomId) (s : HallSlot)
    (t : List Amphipod) (a : Amphipod) : bufferGet (exitGame g r s t a) s = some a := by
  unfold exitGame
  rw [bufferGet_withEnergy, bufferGet_setBuffer_self]

theorem bufferGet_exitGame_ne {s' : HallSlot} (g : AmphipodGame) (r : RoomId) (s : HallSlot)
    (t : List Amphipod) (a : Amphipod) (h : s' ≠ s) :
    bufferGet (exitGame g r s t a) s' = bufferGet g s' := by
  unfold exitGame
  rw [bufferGet_withEnergy, bufferGet_setBuffer_ne _ _ _ h, bufferGet_setBlock]

theorem blockGet_exitGame_self (g : AmphipodGame) (r : RoomId) (s : HallSlot)
    (t : List Amphipod) (a : Amphipod) : blockGet (exitGame g r s t a) r = t := by
  unfold exitGame
  rw [blockGet_withEnergy, blockGet_setBuffer, blockGet_setBlock_self]

theorem blockGet_exitGame_ne {r' : RoomId} (g : AmphipodGame) (r : RoomId) (s : HallSlot)
    (t : List Amphipod) (a : Amphipod) (h : r' ≠ r) :
    blockGet (exitGame g r s t a) r' = blockGet g r' := by
  unfold exitGame
  rw [blockGet_withEnergy, blockGet_setBuffer, blockGet_setBlock_ne _ _ _ h]

theorem bufferGet_entryGame_self (g : AmphipodGame) (r : RoomId) (s : HallSlot) :
    bufferGet (entryGame g r s) s = none := by
  unfold entryGame
  rw [bufferGet_withEnergy, bufferGet_setBuffer_self]

theorem bufferGet_entryGame_ne {s' : HallSlot} (g : AmphipodGame) (r : RoomId) (s : HallSlot)
    (h : s' ≠ s) : bufferGet (entryGame g r s) s' = bufferGet g s' := by
  unfold entryGame
  rw [bufferGet_withEnergy, bufferGet_setBuffer_ne _ _ _ h, bufferGet_setBlock]

theorem blockGet_entryGame_self (g : AmphipodGame) (r : RoomId) (s : HallSlot) :
    blockGet (entryGame g r s) r = blockGet g r ++ [roomKind r] := by
  unfold entryGame
  rw [blockGet_withEnergy, blockGet_setBuffer, blockGet_setBlock_self]

theorem blockGet_entryGame_ne {r' : RoomId} (g : AmphipodGame) (r : RoomId) (s : HallSlot)
    (h : r' ≠ r) : blockGet (entryGame g r s) r' = blockGet g r' := by
  unfold entryGame
  rw [blockGet_withEnergy, blockGet_setBuffer, blockGet_setBlock_ne _ _ _ h]

/-- Every generated move is a legal single relocation. -/
theorem move_legal {g g' : AmphipodGame} (h : g' ∈ get_all_valid_moves g) :
    LegalRelocation g g' := by
  obtain ⟨r, s, hm | hm⟩ := get_all_valid_moves_char h
  · obtain ⟨t, a, ht, hv, hbuf, rfl⟩ := hm
    refine ⟨exitGame_block_depth g r s t a, r, s,
      fun s' hs => bufferGet_exitGame_ne g r s t a hs,
      fun r' hr => blockGet_exitGame_ne g r s t a hr,
      Or.inl ⟨a, hbuf, bufferGet_exitGame_self g r s t a, hv, ?_⟩⟩
    rw [blockGet_exitGame_self]
    exact ht
  · obtain ⟨hbuf, hv, rfl⟩ := hm
    exact ⟨entryGame_block_depth g r s, r, s,
      fun s' hs => bufferGet_entryGame_ne g r s hs,
      fun r' hr => blockGet_entryGame_ne g r s hr,
      Or.inr ⟨hbuf, bufferGet_entryGame_self g r s, hv, blockGet_entryGame_self g r s⟩⟩

theorem valid_count {g : AmphipodGame} {r : RoomId} (hv : roomValidB g r = true) :
    (blockGet g r).count (roomKind r) = (blockGet g r).length := by
  cases r <;>
    simp only [roomValidB, AmphipodGame.is_a_block_valid, AmphipodGame.is_b_block_valid,
      AmphipodGame.is_c_block_valid, AmphipodGame.is_d_block_valid,
      List.all_eq_true, blockGet, roomKind] at hv ⊢ <;>
    refine List.count_eq_length.mpr fun b hb => ?_ <;>
    have := hv b hb <;>
    revert this <;>
    cases b <;>
    simp

theorem count_buffer_block_le {g : AmphipodGame} {s : HallSlot} {k : Amphipod}
    (hb : bufferGet g s = some k) (r : RoomId) :
    (blockGet g r).count k + 1 ≤ countTok g k := by
  cases r <;> cases s <;>
    simp only [bufferGet] at hb <;>
    simp [countTok, tokenList, blockGet, List.count_append, hb, List.count_cons,
      beq_iff_eq] <;>
    omega

theorem wf_count {g : AmphipodGame} (hwf : WellFormed g) (k : Amphipod) :
    countTok g k = g.block_depth := by
  obtain ⟨_, _, _, _, h1, h2, h3, h4⟩ := hwf
  cases k
  · exact h1
  · exact h2
  · exact h3
  · exact h4

theorem wf_block_le {g : AmphipodGame} (hwf : WellFormed g) (r : RoomId) :
    (blockGet g r).length ≤ g.block_depth := by
  obtain ⟨h1, h2, h3, h4, _, _, _, _⟩ := hwf
  cases r
  · exact h1
  · exact h2
  · exact h3
  · exact h4

/-- The energy charged by an exit, as stored by the driver. -/
theorem energy_exitGame_eq (g : AmphipodGame) (r : RoomId) (s : HallSlot)
    (t : List Amphipod) (a : Amphipod) :
    (exitGame g r s t a).energy =
      g.energy + a.multiplier * (hallDist r s + 1 + (g.block_depth - (t.length + 1))) := rfl

/-- The energy charged by an entry, as stored by the driver. -/
theorem energy_entryGame_eq (g : AmphipodGame) (r : RoomId) (s : HallSlot) :
    (entryGame g r s).energy =
      g.energy + ((roomKind r).multiplier * (hallDist r s + 1) +
        (roomKind r).multiplier * (g.block_depth - ((blockGet g r).length + 1))) := rfl

/-- From a board with no generated moves, nothing but the board itself is
reachable. -/
theorem reach_no_moves {g : AmphipodGame} :
    ∀ {k} {gf : AmphipodGame}, get_all_valid_moves g = [] → ReachN g k gf → gf = g := by
  intro k
  induction k with
  | zero => intro gf _ h; exact h
  | succ k ih =>
    rintro gf hnil ⟨p, hr, hmv⟩
    rw [ih hnil hr] at hmv
    rw [hnil] at hmv
    exact absurd hmv (List.not_mem_nil gf)

/-- A winning board has measure zero. -/
theorem winner_measure {g : AmphipodGame} (hw : is_game_winner g = true) : measureG g = 0 := by
  simp only [is_game_winner, Bool.and_eq_true, Option.isNone_iff_eq_none] at hw
  obtain ⟨⟨⟨⟨⟨⟨⟨⟨⟨⟨ha, hb⟩, hc⟩, hd⟩, h1⟩, h2⟩, h3⟩, h4⟩, h5⟩, h6⟩, h7⟩ := hw
  simp [measureG, invalidRoomTokens, occupiedBuffers, ha, hb, hc, hd,
    h1, h2, h3, h4, h5, h6, h7]

/-- C1 counterexample: `goalStart1` is a structurally valid initial board that
is already solved, so the minimum over all finite legal move sequences (the
empty one included) is 0, yet the driver records no winner at all and its
final minimum is the `⊤` value on which the source panics, not the minimum. -/
theorem run_solved_start_cex :
    sInf (goalCosts goalStart1) = 0 ∧
    runAmphipod goalStart1 1 ≠
      some ((sInf (goalCosts goalStart1) : Nat) : WithTop Nat) := by
  have h0 : (0 : Nat) ∈ goalCosts goalStart1 :=
    ⟨0, goalStart1, rfl, by decide, by decide⟩
  have hs : sInf (goalCosts goalStart1) = 0 := Nat.sInf_eq_zero.mpr (Or.inl h0)
  refine ⟨hs, ?_⟩
  have h1 : runAmphipod goalStart1 1 = some ⊤ := by decide
  rw [h1, hs]
  intro hc
  exact WithTop.top_ne_coe (Option.some.inj hc)

/-- C1 (amended): for every structurally valid initial board that is not
already a goal and from which some goal board is reachable, the driver, given
fuel beyond the measure bound, reports exactly the minimum total cost over all
finite legal move sequences reaching a goal board. -/
theorem run_computes_minimum (g0 : AmphipodGame) (fuel : Nat) (hinit : InitialBoard g0)
    (hnw : is_game_winner g0 = false)
    (hsolv : ∃ k gf, ReachN g0 k gf ∧ is_game_winner gf = true)
    (hfuel : measureG g0 < fuel) :
    runAmphipod g0 fuel = some ((sInf (goalCosts g0) : Nat) : WithTop Nat) := by
  obtain ⟨W, hW, hchar⟩ := searchLoop_winners hfuel
  have himage : ∀ n, n ∈ W.image AmphipodGame.energy ↔ n ∈ goalCosts g0 := by
    intro n
    rw [Finset.mem_image]
    constructor
    · rintro ⟨gf, hgf, rfl⟩
      obtain ⟨hw, j, hj1, hr⟩ := (hchar gf).mp hgf
      exact ⟨j, gf, hr, hw, rfl⟩
    · rintro ⟨k, gf, hr, hw, rfl⟩
      refine ⟨gf, (hchar gf).mpr ⟨hw, k, ?_, hr⟩, rfl⟩
      cases k with
      | zero =>
        have hgf : gf = g0 := hr
        rw [hgf, hnw] at hw
        cases hw
      | succ k => omega
  have hne : (W.image AmphipodGame.energy).Nonempty := by
    obtain ⟨k, gf, hr, hw⟩ := hsolv
    exact ⟨gf.energy, (himage gf.energy).mpr ⟨k, gf, hr, hw, rfl⟩⟩
  have hval : (W.image AmphipodGame.energy).min' hne = sInf (goalCosts g0) := by
    have h1 : (W.image AmphipodGame.energy).min' hne ∈ goalCosts g0 :=
      (himage _).mp (Finset.min'_mem _ hne)
    have h2 : sInf (goalCosts g0) ∈ goalCosts g0 := Nat.sInf_mem ⟨_, h1⟩
    have h3 := Nat.sInf_le h1
    have h4 := Finset.min'_le _ _ ((himage _).mpr h2)
    omega
  have hmin : (W.image AmphipodGame.energy).min =
      ((sInf (goalCosts g0) : Nat) : WithTop Nat) := by
    rw [← Finset.coe_min' hne, hval]
    rfl
  unfold runAmphipod
  rw [hW]
  show some (W.image AmphipodGame.energy).min = _
  rw [hmin]

/-- C1 witness: the depth-1 swap board is a valid, unsolved, solvable initial
board, and with fuel 17 the driver reports the minimum sequence cost. -/
theorem run_computes_minimum_witness :
    InitialBoard swapStart ∧ is_game_winner swapStart = false ∧
    (∃ k gf, ReachN swapStart k gf ∧ is_game_winner gf = true) ∧
    measureG swapStart < 17 ∧
    runAmphipod swapStart 17 = some ((sInf (goalCosts swapStart) : Nat) : WithTop Nat) := by
  have hinit : InitialBoard swapStart := by unfold InitialBoard; decide
  have hnw : is_game_winner swapStart = false := by decide
  have hsolv : ∃ k gf, ReachN swapStart k gf ∧ is_game_winner gf = true := by
    refine ⟨4, swapGoal, ?_, by decide⟩
    show ∃ h3, ReachN swapStart 3 h3 ∧ swapGoal ∈ get_all_valid_moves h3
    refine ⟨swapMid3, ?_, by decide⟩
    show ∃ h2, ReachN swapStart 2 h2 ∧ swapMid3 ∈ get_all_valid_moves h2
    refine ⟨swapMid2, ?_, by decide⟩
    show ∃ h1, ReachN swapStart 1 h1 ∧ swapMid2 ∈ get_all_valid_moves h1
    refine ⟨swapMid1, ?_, by decide⟩
    show ∃ h0, ReachN swapStart 0 h0 ∧ swapMid1 ∈ get_all_valid_moves h0
    exact ⟨swapStart, rfl, by decide⟩
  have hfuel : measureG swapStart < 17 := by decide
  exact ⟨hinit, hnw, hsolv, hfuel,
    run_computes_minimum swapStart 17 hinit hnw hsolv hfuel⟩

/-- C2 counterexample: from the deadlocked board the frontier empties with
zero goal sightings, and the driver's final value is the `⊤` of the empty
minimum — exactly the `None` on which the source's
`.expect("At least one winner")` panics, rather than a non-panicking
"no solution" result. -/
theorem run_panics_on_unsolvable_cex :
    searchLoop 2 {deadlockBoard} ∅ = some (∅ : Finset AmphipodGame) ∧
    runAmphipod deadlockBoard 2 = some ⊤ := by
  constructor
  · decide
  · decide

/-- C2 (amended): whenever no goal board is reachable, the loop terminates
with an empty winner set and the driver's final minimum is `⊤` — the value on
which the source's `.expect` panics. -/
theorem run_unsolvable (g0 : AmphipodGame) (fuel : Nat) (hfuel : measureG g0 < fuel)
    (hnone : ∀ k gf, ReachN g0 k gf → is_game_winner gf = false) :
    runAmphipod g0 fuel = some ⊤ := by
  obtain ⟨W, hW, hchar⟩ := searchLoop_winners hfuel
  have hWe : W = ∅ := by
    rw [Finset.eq_empty_iff_forall_not_mem]
    intro g hg
    obtain ⟨hw, j, _, hr⟩ := (hchar g).mp hg
    rw [hnone j g hr] at hw
    cases hw
  unfold runAmphipod
  rw [hW, hWe]
  show some ((∅ : Finset AmphipodGame).image AmphipodGame.energy).min = _
  rw [Finset.image_empty, Finset.min_empty]

/-- C2 witness: the deadlocked board satisfies the no-reachable-goal
hypothesis, and the driver ends at the panicking `⊤`. -/
theorem run_unsolvable_witness :
    measureG deadlockBoard < 8 ∧
    (∀ k gf, ReachN deadlockBoard k gf → is_game_winner gf = false) ∧
    runAmphipod deadlockBoard 8 = some ⊤ := by
  have h1 : measureG deadlockBoard < 8 := by decide
  have h2 : ∀ k gf, ReachN deadlockBoard k gf → is_game_winner gf = false := by
    intro k gf hr
    rw [reach_no_moves (by decide) hr]
    decide
  exact ⟨h1, h2, run_unsolvable deadlockBoard 8 h1 h2⟩

/-- C3 counterexample: after two iterations from `blockerBoard`, the frontier
simultaneously retains the same board configuration at cumulative cost 40 and
at cumulative cost 60 — the no-better path is not discarded, because the
driver keeps no best-known-cost map at all. -/
theorem frontier_keeps_costlier_duplicate :
    keptCheap ∈ frontiers blockerBoard 2 ∧ keptCostly ∈ frontiers blockerBoard 2 ∧
    keptCheap.energy < keptCostly.energy ∧
    keptCostly = { keptCheap with energy := keptCostly.energy } := by
  refine ⟨by decide, by decide, by decide, by decide⟩

/-- C3 (amended): the driver deduplicates only identical (configuration,
cumulative-energy) pairs via set semantics and discards nothing on cost
grounds; what does hold is that every generated successor is strictly more
expensive than its parent, so recorded costs never improve along a path. -/
theorem frontier_cost_strictly_increasing :
    ∀ g g' : AmphipodGame, g' ∈ get_all_valid_moves g → g.energy < g'.energy :=
  fun _ _ h => move_energy h

/-- C3 witness: a concrete generated move strictly increases the stored
cumulative energy. -/
theorem frontier_cost_strictly_increasing_witness :
    swapMid1 ∈ get_all_valid_moves swapStart ∧ swapStart.energy < swapMid1.energy :=
  ⟨by decide, frontier_cost_strictly_increasing swapStart swapMid1 (by decide)⟩

/-- C4 counterexample: on a board that is already a goal the driver finds no
moves, records no winners, and its final value is the panicking `⊤`, not the
claimed total cost 0. -/
theorem run_solved_start_panics :
    is_game_winner goalStart2 = true ∧ runAmphipod goalStart2 1 = some ⊤ ∧
    runAmphipod goalStart2 1 ≠ some ((0 : Nat) : WithTop Nat) := by
  refine ⟨by decide, by decide, by decide⟩

/-- C4 (amended): from a board that is already a goal the generator produces
no moves, the loop stops immediately with zero recorded winners, and the
driver's final minimum is the panicking `⊤` instead of reporting 0. -/
theorem run_goal_start (g0 : AmphipodGame) (fuel : Nat) (hw : is_game_winner g0 = true)
    (hf : 1 ≤ fuel) : get_all_valid_moves g0 = [] ∧ runAmphipod g0 fuel = some ⊤ := by
  have hnil := winner_no_moves hw
  refine ⟨hnil, ?_⟩
  have hfuel : measureG g0 < fuel := by
    rw [winner_measure hw]
    omega
  obtain ⟨W, hW, hchar⟩ := searchLoop_winners hfuel
  have hWe : W = ∅ := by
    rw [Finset.eq_empty_iff_forall_not_mem]
    intro g hg
    obtain ⟨hwg, j, hj1, hr⟩ := (hchar g).mp hg
    cases j with
    | zero => omega
    | succ j =>
      obtain ⟨p, hp, hmv⟩ := hr
      rw [reach_no_moves hnil hp, hnil] at hmv
      exact absurd hmv (List.not_mem_nil g)
  unfold runAmphipod
  rw [hW, hWe]
  show some ((∅ : Finset AmphipodGame).image AmphipodGame.energy).min = _
  rw [Finset.image_empty, Finset.min_empty]

/-- C4 witness: the solved depth-1 board is a winner and the driver panics on
it instead of reporting 0. -/
theorem run_goal_start_witness :
    is_game_winner goalStart1 = true ∧ 1 ≤ 1 ∧
    (get_all_valid_moves goalStart1 = [] ∧ runAmphipod goalStart1 1 = some ⊤) :=
  ⟨by decide, by decide, run_goal_start goalStart1 1 (by decide) (by decide)⟩

/-- C5 counterexample: the goal test accepts the board with all rooms empty,
although no room equals a full-depth stack of its own kind — fullness is not
part of the check. -/
theorem goal_test_ignores_fullness :
    is_game_winner emptyRoomsBoard = true ∧
    emptyRoomsBoard.a_block ≠ List.replicate emptyRoomsBoard.block_depth Amphipod.Amber := by
  refine ⟨by decide, by decide⟩

/-- C5 (amended): the goal test holds exactly when every room contains only
tokens of its own kind — full or not — and every hallway slot is empty. -/
theorem goal_test_iff (g : AmphipodGame) :
    is_game_winner g = true ↔
      ((∀ x ∈ g.a_block, x = Amphipod.Amber) ∧ (∀ x ∈ g.b_block, x = Amphipod.Bronze) ∧
       (∀ x ∈ g.c_block, x = Amphipod.Copper) ∧ (∀ x ∈ g.d_block, x = Amphipod.Desert) ∧
       g.far_left_buffer = none ∧ g.left_buffer = none ∧ g.ab_buffer = none ∧
       g.bc_buffer = none ∧ g.cd_buffer = none ∧ g.right_buffer = none ∧
       g.far_right_buffer = none) := by
  simp only [is_game_winner, Bool.and_eq_true, Option.isNone_iff_eq_none,
    AmphipodGame.is_a_block_valid, AmphipodGame.is_b_block_valid,
    AmphipodGame.is_c_block_valid, AmphipodGame.is_d_block_valid, List.all_eq_true]
  constructor
  · rintro ⟨⟨⟨⟨⟨⟨⟨⟨⟨⟨ha, hb⟩, hc⟩, hd⟩, h1⟩, h2⟩, h3⟩, h4⟩, h5⟩, h6⟩, h7⟩
    refine ⟨fun x hx => ?_, fun x hx => ?_, fun x hx => ?_, fun x hx => ?_,
      h1, h2, h3, h4, h5, h6, h7⟩
    · have := ha x hx
      revert this
      cases x <;> simp
    · have := hb x hx
      revert this
      cases x <;> simp
    · have := hc x hx
      revert this
      cases x <;> simp
    · have := hd x hx
      revert this
      cases x <;> simp
  · rintro ⟨ha, hb, hc, hd, h1, h2, h3, h4, h5, h6, h7⟩
    refine ⟨⟨⟨⟨⟨⟨⟨⟨⟨⟨fun x hx => ?_, fun x hx => ?_⟩, fun x hx => ?_⟩, fun x hx => ?_⟩,
      h1⟩, h2⟩, h3⟩, h4⟩, h5⟩, h6⟩, h7⟩
    · rw [ha x hx]
    · rw [hb x hx]
    · rw [hc x hx]
    · rw [hd x hx]

/-- C6: on structurally valid boards, every generated move charges exactly
(hallway cells between the room mouth and the slot, plus vertical steps into
or out of the room) times the moving token's multiplier, and the multipliers
are exactly 1, 10, 100, 1000. -/
theorem move_cost_formula {g g' : AmphipodGame} (hwf : WellFormed g)
    (h : g' ∈ get_all_valid_moves g) :
    (Amphipod.Amber.multiplier = 1 ∧ Amphipod.Bronze.multiplier = 10 ∧
      Amphipod.Copper.multiplier = 100 ∧ Amphipod.Desert.multiplier = 1000) ∧
    ∃ r s a, (ExitMove g g' r s ∨ EntryMove g g' r s) ∧
      (bufferGet g' s = some a ∨ bufferGet g s = some a) ∧
      g'.energy = g.energy +
        (hallDist r s + (g.block_depth - min (blockGet g r).length (blockGet g' r).length))
          * a.multiplier := by
  refine ⟨⟨rfl, rfl, rfl, rfl⟩, ?_⟩
  obtain ⟨r, s, hm | hm⟩ := get_all_valid_moves_char h
  · obtain ⟨t, a, ht, hv, hbuf, rfl⟩ := hm
    refine ⟨r, s, a, Or.inl ⟨t, a, ht, hv, hbuf, rfl⟩,
      Or.inl (bufferGet_exitGame_self g r s t a), ?_⟩
    rw [energy_exitGame_eq, blockGet_exitGame_self, ht]
    have hle : t.length + 1 ≤ g.block_depth := by
      have hb := wf_block_le hwf r
      rw [ht] at hb
      simpa using hb
    simp only [List.length_append, List.length_singleton]
    have hX : hallDist r s + 1 + (g.block_depth - (t.length + 1))
        = hallDist r s + (g.block_depth - min (t.length + 1) t.length) := by omega
    rw [hX, Nat.mul_comm]
  · obtain ⟨hbuf, hv, rfl⟩ := hm
    refine ⟨r, s, roomKind r, Or.inr ⟨hbuf, hv, rfl⟩, Or.inr hbuf, ?_⟩
    rw [energy_entryGame_eq, blockGet_entryGame_self]
    have hle : (blockGet g r).length + 1 ≤ g.block_depth := by
      have h1 := valid_count hv
      have h2 := count_buffer_block_le hbuf r
      have h3 := wf_count hwf (roomKind r)
      omega
    simp only [List.length_append, List.length_singleton]
    rw [← Nat.mul_add]
    have hX : hallDist r s + 1 + (g.block_depth - ((blockGet g r).length + 1))
        = hallDist r s
          + (g.block_depth - min (blockGet g r).length ((blockGet g r).length + 1)) := by omega
    rw [hX, Nat.mul_comm]

/-- C6 witness: a concrete move on a structurally valid board with its cost in
steps-times-multiplier form. -/
theorem move_cost_formula_witness :
    WellFormed swapStart ∧ swapMid1 ∈ get_all_valid_moves swapStart ∧
    ((Amphipod.Amber.multiplier = 1 ∧ Amphipod.Bronze.multiplier = 10 ∧
      Amphipod.Copper.multiplier = 100 ∧ Amphipod.Desert.multiplier = 1000) ∧
    ∃ r s a, (ExitMove swapStart swapMid1 r s ∨ EntryMove swapStart swapMid1 r s) ∧
      (bufferGet swapMid1 s = some a ∨ bufferGet swapStart s = some a) ∧
      swapMid1.energy = swapStart.energy +
        (hallDist r s +
          (swapStart.block_depth -
            min (blockGet swapStart r).length (blockGet swapMid1 r).length))
          * a.multiplier) := by
  have hwf : WellFormed swapStart := by unfold WellFormed; decide
  have hmem : swapMid1 ∈ get_all_valid_moves swapStart := by decide
  exact ⟨hwf, hmem, move_cost_formula hwf hmem⟩

/-- C7: every generated move preserves the multiset of tokens on the board:
no token is created or destroyed, only relocated. -/
theorem token_conservation :
    ∀ g g' : AmphipodGame, g' ∈ get_all_valid_moves g → tokens g' = tokens g :=
  fun _ _ h => move_tokens h

/-- C7 witness: a concrete move conserving the token multiset. -/
theorem token_conservation_witness :
    swapMid2 ∈ get_all_valid_moves swapMid1 ∧ tokens swapMid2 = tokens swapMid1 :=
  ⟨by decide, token_conservation swapMid1 swapMid2 (by decide)⟩

/-- C8: every generated successor differs from its board by exactly one legal
relocation between a room and a hallway slot — never into a foreign room,
never into an occupied slot, never hallway-to-hallway or room-to-room. -/
theorem moves_single_legal_relocation :
    ∀ g g' : AmphipodGame, g' ∈ get_all_valid_moves g → LegalRelocation g g' :=
  fun _ _ h => move_legal h

/-- C8 witness: a concrete generated move is a single legal relocation. -/
theorem moves_single_legal_relocation_witness :
    swapMid3 ∈ get_all_valid_moves swapMid2 ∧ LegalRelocation swapMid2 swapMid3 :=
  ⟨by decide, moves_single_legal_relocation swapMid2 swapMid3 (by decide)⟩

/-- C9: in every room-exit generator, the panicking `.expect` on the top-token
extraction is unreachable — a room failing its all-same-kind validity check
is necessarily non-empty, since an empty room passes the check and causes the
early return. -/
theorem room_top_extraction_safe (g : AmphipodGame) :
    (g.is_a_block_valid = false → g.a_block.getLast?.isSome = true) ∧
    (g.is_b_block_valid = false → g.b_block.getLast?.isSome = true) ∧
    (g.is_c_block_valid = false → g.c_block.getLast?.isSome = true) ∧
    (g.is_d_block_valid = false → g.d_block.getLast?.isSome = true) := by
  refine ⟨?_, ?_, ?_, ?_⟩ <;>
    intro h <;>
    rw [List.getLast?_isSome] <;>
    intro hnil <;>
    simp [AmphipodGame.is_a_block_valid, AmphipodGame.is_b_block_valid,
      AmphipodGame.is_c_block_valid, AmphipodGame.is_d_block_valid, hnil] at h

/-- C9 witness: on a board where all four rooms fail their checks, all four
top-token extractions succeed. -/
theorem room_top_extraction_safe_witness :
    allWrongBoard.is_a_block_valid = false ∧ allWrongBoard.is_b_block_valid = false ∧
    allWrongBoard.is_c_block_valid = false ∧ allWrongBoard.is_d_block_valid = false ∧
    allWrongBoard.a_block.getLast?.isSome = true ∧
    allWrongBoard.b_block.getLast?.isSome = true ∧
    allWrongBoard.c_block.getLast?.isSome = true ∧
    allWrongBoard.d_block.getLast?.isSome = true :=
  ⟨by decide, by decide, by decide, by decide,
    (room_top_extraction_safe allWrongBoard).1 (by decide),
    (room_top_extraction_safe allWrongBoard).2.1 (by decide),
    (room_top_extraction_safe allWrongBoard).2.2.1 (by decide),
    (room_top_extraction_safe allWrongBoard).2.2.2 (by decide)⟩

/-- C10: the search loop always terminates: with fuel beyond the measure
bound the frontier is empty and the loop returns a result. -/
theorem search_loop_terminates (g0 : AmphipodGame) (fuel : Nat)
    (hfuel : measureG g0 < fuel) :
    frontiers g0 fuel = ∅ ∧ (searchLoop fuel {g0} ∅).isSome = true := by
  refine ⟨frontiers_empty hfuel, ?_⟩
  obtain ⟨W, hW, _⟩ := searchLoop_winners hfuel
  rw [hW]
  rfl

/-- C10 witness: the loop terminates on a concrete board within the measure
bound. -/
theorem search_loop_terminates_witness :
    measureG allWrongBoard < 33 ∧
    (frontiers allWrongBoard 33 = ∅ ∧ (searchLoop 33 {allWrongBoard} ∅).isSome = true) :=
  ⟨by decide, search_loop_terminates allWrongBoard 33 (by decide)⟩
